import Mathlib

/-!
# Token-exchange client: `http/src/client/client.go`

A shallow embedding of the single-run client `main`:
load the CA file and the client key pair, POST an RFC 8693 token-exchange
form to the STS over mutual TLS, decode the JSON answer, GET the resource
with the returned token as bearer credential, log the body.

Go strings are byte sequences, so they are modelled as lists of bytes.
Everything outside the process (file system, the two servers) and the
library calls whose code is not part of the program (`json.Unmarshal`,
`http.NewRequest`, the PEM and key-pair loaders) are fields of a `World`
record: functions from the arguments of the call to its result.  A run of
`main` is the list of externally visible events together with the exit
status of the process.

What `main` sees of a server is what `Client.Do` returns, and that is the
field `roundTrip` of the world.  Between the servers and that answer stands
the redirect loop of the HTTP client (neither client of the program sets
`CheckRedirect`): `http.Client.follow` embeds that loop over single exchanges
on the wire, and `World.overNetwork` is the world whose `roundTrip` is the
loop run over a given network.

The pieces of `net/url` that decide the wire format of the form
(`Values.Add`, `Values.Encode`, `QueryEscape`, `ParseQuery`,
`QueryUnescape`) are embedded from the Go standard library, specialised to
the mode `encodeQueryComponent` that those entry points use.
-/

namespace CertBoundSTS

/-! ## Go strings -/

/-- One byte of a Go string. -/
abbrev Byte := Fin 256

/-- A Go `string` (also `[]byte`): a finite sequence of bytes. -/
abbrev GoString := List Byte

/-- The bytes of an ASCII string literal of the source. -/
def str (s : String) : GoString := s.toList.map (fun ch => Fin.ofNat ch.toNat)

/-- A Go `error` value, represented by its message (`err.Error()`). -/
abbrev GoError := GoString

/-- The verb `%v` applied to an `error`: the message, or `<nil>` for a nil error. -/
def fmtErr : Option GoError → GoString
  | some e => e
  | none => str "<nil>"

/-! ## `net/url`: escaping -/

namespace url

/-- Why `QueryUnescape` / `ParseQuery` rejected an input. -/
inductive ParseError where
  /-- `EscapeError(s)`: a `%` not followed by two hex digits; `s` is at most 3 bytes. -/
  | escape (s : GoString)
  /-- The error "invalid semicolon separator in query". -/
  | semicolon
  deriving DecidableEq, Repr

/-- Letters and digits: the first test of `shouldEscape`. -/
def isAlnum (c : Byte) : Bool :=
  (97 ≤ c.val && c.val ≤ 122) || (65 ≤ c.val && c.val ≤ 90) || (48 ≤ c.val && c.val ≤ 57)

/-- The function `shouldEscape(c, encodeQueryComponent)`. -/
def shouldEscape (c : Byte) : Bool :=
  if isAlnum c then false
  -- '-', '_', '.', '~': unreserved marks
  else if c = 45 ∨ c = 95 ∨ c = 46 ∨ c = 126 then false
  -- '$', '&', '+', ',', '/', ':', ';', '=', '?', '@': reserved, escaped in a query component
  else if c = 36 ∨ c = 38 ∨ c = 43 ∨ c = 44 ∨ c = 47 ∨ c = 58 ∨ c = 59 ∨ c = 61 ∨ c = 63 ∨ c = 64
    then true
  -- everything else must be escaped
  else true

/-- The lookup `upperhex[n]` in the table "0123456789ABCDEF". -/
def upperhex (n : Nat) : Byte := (str "0123456789ABCDEF").getD n 0

/-- The function `ishex`. -/
def ishex (c : Byte) : Bool :=
  (48 ≤ c.val && c.val ≤ 57) || (97 ≤ c.val && c.val ≤ 102) || (65 ≤ c.val && c.val ≤ 70)

/-- The function `unhex`. -/
def unhex (c : Byte) : Byte :=
  if 48 ≤ c.val ∧ c.val ≤ 57 then c - 48
  else if 97 ≤ c.val ∧ c.val ≤ 102 then c - 97 + 10
  else if 65 ≤ c.val ∧ c.val ≤ 70 then c - 65 + 10
  else 0

/-- What the second loop of `escape` writes for one input byte. -/
def escapeByte (c : Byte) : GoString :=
  if c = 32 then [43]
  else if shouldEscape c then [37, upperhex (c.val / 16), upperhex (c.val % 16)]
  else [c]

/-- The function `QueryEscape(s)`, that is `escape(s, encodeQueryComponent)`:
count the spaces and the bytes to hex-escape, return `s` itself when there
are none, only turn spaces into `+` when nothing is hex-escaped, and
otherwise rewrite byte by byte. -/
def QueryEscape (s : GoString) : GoString :=
  let spaceCount := (s.filter (fun c => shouldEscape c && c == 32)).length
  let hexCount := (s.filter (fun c => shouldEscape c && c != 32)).length
  if spaceCount = 0 ∧ hexCount = 0 then s
  else if hexCount = 0 then s.map (fun c => if c = 32 then 43 else c)
  else (s.map escapeByte).flatten

/-- First loop of `unescape(s, encodeQueryComponent)`: the number of `%` and
whether a `+` occurs, or the `EscapeError` of the first malformed escape. -/
def checkEscapes : GoString → Except ParseError (Nat × Bool)
  | [] => .ok (0, false)
  | c :: rest =>
    if c = 37 then
      match rest with
      | h1 :: h2 :: rest2 =>
        if ishex h1 && ishex h2 then
          match checkEscapes rest2 with
          | .ok (n, hasPlus) => .ok (n + 1, hasPlus)
          | .error e => .error e
        else .error (.escape ((c :: rest).take 3))
      | _ => .error (.escape ((c :: rest).take 3))
    else if c = 43 then
      match checkEscapes rest with
      | .ok (n, _) => .ok (n, true)
      | .error e => .error e
    else checkEscapes rest

/-- Second loop of `unescape(s, encodeQueryComponent)`, run only on input that
passed `checkEscapes`: `%XY` becomes the byte `unhex(X)<<4 | unhex(Y)`, `+`
becomes a space, every other byte is copied. -/
def decodeEscapes : GoString → GoString
  | [] => []
  | c :: rest =>
    if c = 37 then
      match rest with
      | h1 :: h2 :: rest2 => (unhex h1 <<< 4 ||| unhex h2) :: decodeEscapes rest2
      | _ => []
    else if c = 43 then 32 :: decodeEscapes rest
    else c :: decodeEscapes rest

/-- The function `QueryUnescape(s)`, that is `unescape(s, encodeQueryComponent)`. -/
def QueryUnescape (s : GoString) : Except ParseError GoString :=
  match checkEscapes s with
  | .error e => .error e
  | .ok (n, hasPlus) => if n = 0 ∧ hasPlus = false then .ok s else .ok (decodeEscapes s)

/-! ## `net/url`: `Values` -/

/-- The type `url.Values`, a `map[string][]string`: an association list with
pairwise distinct keys.  The order of the entries carries no meaning (a Go
map has none); `Encode` sorts the keys before it uses them. -/
abbrev Values := List (GoString × List GoString)

/-- The literal `url.Values{}`: the empty map. -/
def Values.empty : Values := []

/-- The map lookup `v[key]`: the values of the key, `nil` when it is absent. -/
def Values.lookupAll (v : Values) (key : GoString) : List GoString :=
  match v.lookup key with
  | some vs => vs
  | none => []

/-- The keys of the map. -/
def Values.keys (v : Values) : List GoString := v.map Prod.fst

/-- The method `Values.Add`: `v[key] = append(v[key], value)`. -/
def Values.Add (v : Values) (key value : GoString) : Values :=
  if v.any (fun e => e.1 == key) then
    v.map (fun e => if e.1 = key then (e.1, e.2 ++ [value]) else e)
  else v ++ [(key, [value])]

/-- Byte-wise lexicographic order of Go strings (`a <= b`), the order of `slices.Sort`. -/
def strLE : GoString → GoString → Bool
  | [], _ => true
  | _ :: _, [] => false
  | x :: xs, y :: ys => if x.val < y.val then true else if y.val < x.val then false else strLE xs ys

/-- Insertion of a key into a sorted list of keys. -/
def insertKey (k : GoString) : List GoString → List GoString
  | [] => [k]
  | x :: xs => if strLE k x then k :: x :: xs else x :: insertKey k xs

/-- The call `slices.Sort(keys)`. -/
def sortKeys : List GoString → List GoString
  | [] => []
  | k :: ks => insertKey k (sortKeys ks)

/-- One step of the inner loop of `Encode`: a `&` when the buffer is not
empty, then the escaped key, `=`, and the escaped value. -/
def encodePair (keyEscaped : GoString) (buf : GoString) (value : GoString) : GoString :=
  (if buf.length > 0 then buf ++ [38] else buf) ++ keyEscaped ++ [61] ++ QueryEscape value

/-- The method `Values.Encode`: "URL encoded" form (`bar=baz&foo=quux`) sorted by key. -/
def Values.Encode (v : Values) : GoString :=
  if v.length = 0 then []
  else
    (sortKeys v.keys).foldl
      (fun buf k => (v.lookupAll k).foldl (encodePair (QueryEscape k)) buf) []

/-- The function `strings.Cut(s, sep)` for a one-byte separator: the text
before and after the first `sep`, and whether `sep` occurs. -/
def cut (sep : Byte) : GoString → GoString × GoString × Bool
  | [] => ([], [], false)
  | c :: rest =>
    if c = sep then ([], rest, true)
    else
      let r := cut sep rest
      (c :: r.1, r.2.1, r.2.2)

/-- The statement `m[key] = append(m[key], value)` of `parseQuery`. -/
def Values.append (m : Values) (key value : GoString) : Values := m.Add key value

/-- The loop of `parseQuery(m, query)`, `for query != ""`, with `err` the
first error met so far.  Every iteration removes at least one byte from
`query`, so `fuel = len(query)` iterations are enough; `none` only when the
fuel is used up before the query is. -/
def parseQueryLoop : Nat → Values → GoString → Option ParseError → Option (Values × Option ParseError)
  | _, m, [], err => some (m, err)
  | 0, _, _ :: _, _ => none
  | fuel + 1, m, q :: qs, err =>
    let c := cut 38 (q :: qs)
    let key := c.1
    let query := c.2.1
    if (59 : Byte) ∈ key then parseQueryLoop fuel m query (some .semicolon)
    else if key = [] then parseQueryLoop fuel m query err
    else
      let kv := cut 61 key
      match QueryUnescape kv.1 with
      | .error err1 => parseQueryLoop fuel m query (if err = none then some err1 else err)
      | .ok key1 =>
        match QueryUnescape kv.2.1 with
        | .error err1 => parseQueryLoop fuel m query (if err = none then some err1 else err)
        | .ok value => parseQueryLoop fuel (m.append key1 value) query err

/-- The function `ParseQuery(query)`: the values parsed, and the first error
(`nil` is `none`).  The outer `Option` is `none` only if the loop ran out of
fuel, which `ParseQuery_total` excludes. -/
def ParseQuery (query : GoString) : Option (Values × Option ParseError) :=
  parseQueryLoop query.length [] query none

end url

/-! ## `crypto/tls`, `crypto/x509`, `net/http`: the data the program builds -/

/-- A certificate of a `x509.CertPool`, as its encoded bytes. -/
abbrev X509Certificate := GoString

/-- A `*x509.CertPool`: the certificates added to it. -/
abbrev CertPool := List X509Certificate

/-- A `tls.Certificate`: a certificate chain with its private key. -/
structure TLSCertificate where
  Certificate : List GoString
  PrivateKey : GoString
  deriving DecidableEq, Repr

/-- The fields of `tls.Config` that the program sets. -/
structure TLSConfig where
  ServerName : GoString
  Certificates : List TLSCertificate
  RootCAs : CertPool
  deriving DecidableEq, Repr

namespace http

/-- The type `http.Header`, a `map[string][]string`. -/
abbrev Header := url.Values

/-- An `*http.Request` as built by `http.NewRequest`: method, the URL it was
given, the header map and the body (`none` for a nil body). -/
structure Request where
  Method : GoString
  URL : GoString
  Header : Header
  Body : Option GoString
  deriving DecidableEq, Repr

/-- An `*http.Response`: `Body` is what `ioutil.ReadAll(resp.Body)` returns,
the bytes read and the read error (`none` for nil). -/
structure Response where
  StatusCode : Int
  Status : GoString
  Header : Header
  Body : GoString × Option GoError
  deriving DecidableEq, Repr

/-- The constant `http.StatusOK`. -/
def StatusOK : Int := 200

/-- Token bytes of RFC 7230 (`validHeaderFieldByte`, `httpguts.IsTokenRune`):
letters, digits and the marks of "!#$%&'*+-.^_\x60|~". -/
def isTokenByte (c : Byte) : Bool :=
  url.isAlnum c || c ∈ str "!#$%&*+-.^_|~" || c = 39 || c = 96

/-- The case loop of `canonicalMIMEHeaderKey`: upper case at the start and
after `-`, lower case elsewhere. -/
def canonicalCase : Bool → GoString → GoString
  | _, [] => []
  | upper, c :: rest =>
    let c1 : Byte :=
      if upper ∧ 97 ≤ c.val ∧ c.val ≤ 122 then c - 32
      else if ¬ upper ∧ 65 ≤ c.val ∧ c.val ≤ 90 then c + 32
      else c
    c1 :: canonicalCase (c1 = 45) rest

/-- The function `textproto.CanonicalMIMEHeaderKey`: a key with a byte that
is not a token byte is returned unchanged, any other key in canonical case. -/
def CanonicalMIMEHeaderKey (s : GoString) : GoString :=
  if s.all isTokenByte then canonicalCase true s else s

/-- The method `Header.Add`: append `value` to the values of the canonical key. -/
def Header.Add (h : Header) (key value : GoString) : Header :=
  url.Values.Add h (CanonicalMIMEHeaderKey key) value

/-- The method `Header.Set`: the canonical key gets the single value `value`. -/
def Header.Set (h : Header) (key value : GoString) : Header :=
  let k := CanonicalMIMEHeaderKey key
  if h.any (fun e => e.1 == k) then h.map (fun e => if e.1 = k then (e.1, [value]) else e)
  else h ++ [(k, [value])]

/-- The method `Header.Get`: the first value of the canonical key, the empty
string when the key has no value. -/
def Header.Get (h : Header) (key : GoString) : GoString :=
  match url.Values.lookupAll h (CanonicalMIMEHeaderKey key) with
  | [] => []
  | v :: _ => v

/-- The function `validMethod`: a non-empty sequence of token bytes. -/
def validMethod (method : GoString) : Bool :=
  method.length > 0 && method.all isTokenByte

/-- What lies beyond the HTTP client: the single exchanges on the wire, and the
library code that builds the request of a redirect hop. -/
structure Network where
  /-- One exchange `Transport.RoundTrip(req)` over a connection set up with the
  given TLS configuration: one request out, one response (or an error) back. -/
  transport : TLSConfig → Request → Except GoError Response
  /-- The call `req.URL.Parse(loc)`: the `Location` value resolved against the
  URL of the request that was answered. -/
  resolveReference : GoString → GoString → Except GoError GoString
  /-- The header map of the next hop (the headers copied from the first request
  and the `Referer`), from the first request, the last request and the new URL. -/
  redirectHeader : Request → Request → GoString → Header

/-- The function `redirectBehavior(reqMethod, resp, ireq)`: the method of the
next hop, whether the response is a redirect to follow, and whether the body
is sent again.  On 301, 302 and 303 every method but GET and HEAD becomes GET
and the body is dropped; on 307 and 308 method and body are kept (the request
bodies of this program can be read again, so `GetBody` is never missing);
every other status is not a redirect. -/
def redirectBehavior (reqMethod : GoString) (resp : Response) (_ireq : Request) :
    GoString × Bool × Bool :=
  if resp.StatusCode = 301 ∨ resp.StatusCode = 302 ∨ resp.StatusCode = 303 then
    (if reqMethod ≠ str "GET" ∧ reqMethod ≠ str "HEAD" then str "GET" else reqMethod,
      true, false)
  else if resp.StatusCode = 307 ∨ resp.StatusCode = 308 then (reqMethod, true, true)
  else ([], false, false)

/-- The loop of `Client.do` with the default redirect policy, from the sending
of `req` on: the requests put on the wire, in order, and what the call
returns.  A transport error is returned; a response that is not a redirect,
or that has no `Location`, is returned; otherwise the next hop is built and,
unless the policy stops it, sent in turn.  `left` is 10 minus the number of
requests sent so far including `req`: `defaultCheckRedirect` fails once 10
requests were made ("stopped after 10 redirects"), and the call then returns
an error. -/
def Client.doLoop (net : Network) (tls : TLSConfig) (ireq : Request) :
    Nat → Request → List Request × Except GoError Response
  | left, req =>
    match net.transport tls req with
    | .error err => ([req], .error err)
    | .ok resp =>
      let rb := redirectBehavior req.Method resp ireq
      if rb.2.1 = false then ([req], .ok resp)
      else
        let loc := resp.Header.Get (str "Location")
        if loc = [] then ([req], .ok resp)
        else
          match net.resolveReference req.URL loc with
          | .error err => ([req], .error (str "failed to parse Location header: " ++ err))
          | .ok u =>
            let next : Request :=
              { Method := rb.1, URL := u, Header := net.redirectHeader ireq req u,
                Body := if rb.2.2 then ireq.Body else none }
            match left with
            | 0 => ([req], .error (str "stopped after 10 redirects"))
            | left1 + 1 =>
              let r := Client.doLoop net tls ireq left1 next
              (req :: r.1, r.2)

/-- What `Client.Do(req)` does over a network, for a client without
`CheckRedirect`: the requests put on the wire and the answer of the call. -/
def Client.follow (net : Network) (tls : TLSConfig) (req : Request) :
    List Request × Except GoError Response :=
  Client.doLoop net tls req 9 req

end http

/-- The struct `TokenResponse` (RFC 8693, section 2.2.1). -/
structure TokenResponse where
  AccessToken : GoString
  IssuedTokenType : GoString
  TokenType : GoString
  ExpiresIn : Int
  Scope : GoString
  RefreshToken : GoString
  deriving DecidableEq, Repr

/-- The values of the command-line flags after `flag.Parse()`. -/
structure Flags where
  resourceAddress : GoString
  resourceSNI : GoString
  tlsCA : GoString
  tlsCert : GoString
  tlsKey : GoString
  stsSNI : GoString
  stsAddress : GoString
  stsAudience : GoString
  stsScope : GoString
  stsCred : GoString
  deriving DecidableEq, Repr

/-- Everything `main` does not compute itself: the file system, the network
and the library calls whose result depends on more than the program text.
Each field maps the arguments of a call to its result. -/
structure World where
  /-- The call `ioutil.ReadFile(name)`. -/
  readFile : GoString → Except GoError GoString
  /-- The certificates that `AppendCertsFromPEM(pem)` finds and adds to the
  pool; the call returns `false` exactly when there are none. -/
  certsFromPEM : GoString → List X509Certificate
  /-- The call `tls.LoadX509KeyPair(certFile, keyFile)`. -/
  loadX509KeyPair : GoString → GoString → Except GoError TLSCertificate
  /-- The call `url.Parse(rawURL)` inside `http.NewRequest`: its error, if any. -/
  urlParse : GoString → Option GoError
  /-- What `Client.Do(req)` returns for a client whose transport has the given
  TLS configuration: an error, or the response handed back to the caller (the
  response to the last request, when the client followed redirects). -/
  roundTrip : TLSConfig → http.Request → Except GoError http.Response
  /-- The call `json.Unmarshal(data, &result)` on a zero `TokenResponse`. -/
  jsonUnmarshal : GoString → Except GoError TokenResponse

/-- The world `w` with its HTTP clients working over the network `net`: what
`Client.Do` returns is the outcome of the redirect loop. -/
def World.overNetwork (w : World) (net : http.Network) : World :=
  { w with roundTrip := fun tls req => (http.Client.follow net tls req).2 }

/-- What a run does that can be observed from outside the process. -/
inductive Event where
  /-- The call `log.Fatalf`: the message is logged, then the process exits with status 1. -/
  | fatalf (msg : GoString)
  /-- Bytes written to standard output by `fmt.Printf` / `fmt.Println`. -/
  | print (out : GoString)
  /-- The call `log.Println(msg)`: `msg` is logged as one line. -/
  | logPrintln (msg : GoString)
  /-- A request handed to an `http.Client` whose transport has the TLS configuration `tls`. -/
  | send (tls : TLSConfig) (req : http.Request)
  deriving DecidableEq, Repr

/-- A finished run: its events in order, and the exit status of the process. -/
structure Run where
  events : List Event
  exitCode : Nat
  deriving DecidableEq, Repr

/-- The run that first does `evs` and then continues as `r`. -/
def Run.after (evs : List Event) (r : Run) : Run := ⟨evs ++ r.events, r.exitCode⟩

namespace http

/-- The function `http.NewRequest(method, url, body)`: an empty method means
GET, an invalid method or a URL that `url.Parse` rejects is an error, and the
new request has an empty header map. -/
def NewRequest (w : World) (method rawURL : GoString) (body : Option GoString) :
    Except GoError Request :=
  let method := if method = [] then str "GET" else method
  if ¬ validMethod method then .error (str "net/http: invalid method " ++ method)
  else
    match w.urlParse rawURL with
    | some err => .error err
    | none => .ok { Method := method, URL := rawURL, Header := url.Values.empty, Body := body }

/-- The method `Client.Do(req)` of a client with TLS configuration `tls`: the
request is handed to the client, and the call returns what the world says it
returns (`World.roundTrip`; over a network, the outcome of `Client.follow`). -/
def Client.Do (w : World) (tls : TLSConfig) (req : Request) :
    List Event × Except GoError Response :=
  ([Event.send tls req], w.roundTrip tls req)

/-- The method `Client.Post(url, contentType, body)`. -/
def Client.Post (w : World) (tls : TLSConfig) (rawURL contentType body : GoString) :
    List Event × Except GoError Response :=
  match NewRequest w (str "POST") rawURL (some body) with
  | .error err => ([], .error err)
  | .ok req => Client.Do w tls { req with Header := Header.Set req.Header (str "Content-Type") contentType }

/-- The method `Client.PostForm(url, data)`. -/
def Client.PostForm (w : World) (tls : TLSConfig) (rawURL : GoString) (data : url.Values) :
    List Event × Except GoError Response :=
  Client.Post w tls rawURL (str "application/x-www-form-urlencoded") data.Encode

end http

/-! ## The program -/

/-- Lines 69-76 of `main`: the token-exchange form. -/
def tokenExchangeForm (cfg : Flags) : url.Values :=
  let form := url.Values.empty
  let form := form.Add (str "grant_type") (str "urn:ietf:params:oauth:grant-type:token-exchange")
  let form := form.Add (str "resource") cfg.stsAudience
  let form := form.Add (str "audience") cfg.stsAudience
  let form := form.Add (str "subject_token_type") (str "urn:ietf:params:oauth:token-type:access_token")
  let form := form.Add (str "requested_token_type") (str "urn:ietf:params:oauth:token-type:jwt")
  let form := form.Add (str "scope") cfg.stsScope
  let form := form.Add (str "subject_token") cfg.stsCred
  form

/-- Lines 107-140 of `main`: build the GET request, add the bearer token, send
it through a client with the resource TLS configuration, log the body. -/
def authenticatedFetch (cfg : Flags) (w : World) (clientCerts : TLSCertificate)
    (caCertPool : CertPool) (result : TokenResponse) : Run :=
  match http.NewRequest w (str "GET") cfg.resourceAddress none with
  | .error _ => ⟨[.print (str "Can not get Resource\n")], 0⟩
  | .ok req0 =>
    let req : http.Request :=
      { req0 with Header := http.Header.Add req0.Header (str "Authorization")
                              (str "Bearer " ++ result.AccessToken) }
    let resourceTLSConfig : TLSConfig :=
      { ServerName := cfg.resourceSNI, Certificates := [clientCerts], RootCAs := caCertPool }
    match http.Client.Do w resourceTLSConfig req with
    | (sent, .error err) =>
      ⟨sent ++ [.print (str "Error on response.\n[ERROR] " ++ err ++ str "\n")], 0⟩
    | (sent, .ok resp) =>
      match resp.Body with
      | (_, some err) =>
        ⟨sent ++ [.print (str "Error while reading the response bytes: " ++ err ++ str "\n")], 0⟩
      | (resourceBody, none) => ⟨sent ++ [.logPrintln resourceBody], 0⟩

/-- Lines 58-104 of `main`, followed by the fetch: post the form through a
client with the STS TLS configuration, require status 200, read and decode
the body, print the token. -/
def tokenExchange (cfg : Flags) (w : World) (clientCerts : TLSCertificate)
    (caCertPool : CertPool) : Run :=
  let stsTLSConfig : TLSConfig :=
    { ServerName := cfg.stsSNI, Certificates := [clientCerts], RootCAs := caCertPool }
  let form := tokenExchangeForm cfg
  match http.Client.PostForm w stsTLSConfig cfg.stsAddress form with
  | (sent, .error err) => ⟨sent ++ [.print (str "Error: could not connect " ++ err)], 0⟩
  | (sent, .ok stsResp) =>
    if stsResp.StatusCode ≠ http.StatusOK then
      let (bodyBytes, err) := stsResp.Body
      ⟨sent ++ [.print (str "Unable to exchange token " ++ bodyBytes ++ str ",  " ++ fmtErr err)], 0⟩
    else
      match stsResp.Body with
      | (_, some err) => ⟨sent ++ [.print (err ++ str "\n")], 0⟩
      | (body, none) =>
        match w.jsonUnmarshal body with
        | .error _ =>
          ⟨sent ++ [.print (stsResp.Status ++ str "\n"), .print (str "Can not unmarshal JSON\n")], 0⟩
        | .ok result =>
          Run.after
            (sent ++ [.print (stsResp.Status ++ str "\n"),
                      .print (str "STS Token: " ++ result.AccessToken ++ str "\n")])
            (authenticatedFetch cfg w clientCerts caCertPool result)

/-- The function `main` after `flag.Parse()`: read the CA file, build the
pool (the result of `AppendCertsFromPEM` is not looked at), load the client
key pair, then run the exchange and the fetch.  A normal return of `main`
is exit status 0; `log.Fatalf` ends the process with exit status 1. -/
def main (cfg : Flags) (w : World) : Run :=
  match w.readFile cfg.tlsCA with
  | .error err => ⟨[.fatalf (str "did not read tlsCA: " ++ err)], 1⟩
  | .ok caCert =>
    let caCertPool : CertPool := w.certsFromPEM caCert
    match w.loadX509KeyPair cfg.tlsCert cfg.tlsKey with
    | .error err => ⟨[.fatalf (str "did not read client certs: " ++ err)], 1⟩
    | .ok clientCerts => tokenExchange cfg w clientCerts caCertPool

/-! ## Observing a run -/

/-- The request of a `send` event, with the TLS configuration of its client. -/
def Event.request : Event → Option (TLSConfig × http.Request)
  | .send tls req => some (tls, req)
  | _ => none

/-- The requests handed to an HTTP client during a run, in order. -/
def Run.sent (r : Run) : List (TLSConfig × http.Request) := r.events.filterMap Event.request

/-- The GET requests of a run, each with the TLS configuration of its client. -/
def Run.gets (r : Run) : List (TLSConfig × http.Request) :=
  r.sent.filter (fun p => p.2.Method = str "GET")

/-- The POST requests of a run, each with the TLS configuration of its client. -/
def Run.posts (r : Run) : List (TLSConfig × http.Request) :=
  r.sent.filter (fun p => p.2.Method = str "POST")

/-- The value of `stsTLSConfig` (lines 58-62) for a loaded key pair and pool. -/
def stsTLS (cfg : Flags) (cert : TLSCertificate) (pool : CertPool) : TLSConfig :=
  { ServerName := cfg.stsSNI, Certificates := [cert], RootCAs := pool }

/-- The value of `resourceTLSConfig` (lines 115-119) for a loaded key pair and pool. -/
def resourceTLS (cfg : Flags) (cert : TLSCertificate) (pool : CertPool) : TLSConfig :=
  { ServerName := cfg.resourceSNI, Certificates := [cert], RootCAs := pool }

/-- The request that `PostForm` hands to the STS client. -/
def postRequest (cfg : Flags) : http.Request :=
  { Method := str "POST", URL := cfg.stsAddress,
    Header := [(str "Content-Type", [str "application/x-www-form-urlencoded"])],
    Body := some (tokenExchangeForm cfg).Encode }

/-- The GET request for `resourceAddress` whose only header is
`Authorization: Bearer t`. -/
def bearerRequest (cfg : Flags) (t : GoString) : http.Request :=
  { Method := str "GET", URL := cfg.resourceAddress,
    Header := [(str "Authorization", [str "Bearer " ++ t])], Body := none }

/-- The world `w`, except that every response to a GET request carries the
status code `code` and the status line `status`. -/
def World.withResourceStatus (w : World) (code : Int) (status : GoString) : World :=
  { w with
    roundTrip := fun tls req =>
      if req.Method = str "GET" then
        match w.roundTrip tls req with
        | .ok resp => .ok { resp with StatusCode := code, Status := status }
        | .error err => .error err
      else w.roundTrip tls req }

/-! ## Sample configurations and worlds -/

/-- The flags of the end-to-end scenario: `stsCred = "abc"`,
`stsaudience = "https://svc:8443"`, `scope = "read"`. -/
def demoFlags : Flags :=
  { resourceAddress := str "https://svc:8443", resourceSNI := str "svc.domain.com",
    tlsCA := str "tls-ca.crt", tlsCert := str "alice.crt", tlsKey := str "alice.key",
    stsSNI := str "sts.domain.com", stsAddress := str "https://sts:8081",
    stsAudience := str "https://svc:8443", stsScope := str "read", stsCred := str "abc" }

/-- The body of the STS answer in the end-to-end scenario: a JSON object with
`access_token` "TKN123" and `token_type` "Bearer". -/
def tokenJSON : GoString :=
  str "\x7b\"access_token\":\"TKN123\",\"token_type\":\"Bearer\"\x7d"

/-- The answers of `json.Unmarshal` on the bodies of the sample worlds. -/
def demoJSON (data : GoString) : Except GoError TokenResponse :=
  if data = tokenJSON then
    .ok { AccessToken := str "TKN123", IssuedTokenType := [], TokenType := str "Bearer",
          ExpiresIn := 0, Scope := [], RefreshToken := [] }
  else if data = str "\x7b\x7d" then
    .ok { AccessToken := [], IssuedTokenType := [], TokenType := [],
          ExpiresIn := 0, Scope := [], RefreshToken := [] }
  else .error (str "unexpected end of JSON input")

/-- A world with a CA file `tls-ca.crt` whose content is `caFile`, the key
pair `alice.crt` / `alice.key`, an STS that answers every POST with
`stsResp`, and a resource server that answers every GET with `resourceResp`.
A PEM text holds a certificate only if it is the text "-----BEGIN CERTIFICATE-----";
a handshake against an empty root pool fails; `url.Parse` rejects "://x". -/
def demoWorld (caFile : GoString) (stsResp resourceResp : http.Response) : World :=
  { readFile := fun name =>
      if name = str "tls-ca.crt" then .ok caFile
      else .error (str "open " ++ name ++ str ": no such file or directory"),
    certsFromPEM := fun pem => if pem = str "-----BEGIN CERTIFICATE-----" then [str "CA"] else [],
    loadX509KeyPair := fun c k =>
      if c = str "alice.crt" ∧ k = str "alice.key" then .ok ⟨[str "alice"], str "alice-key"⟩
      else .error (str "open " ++ c ++ str ": no such file or directory"),
    urlParse := fun u => if u = str "://x" then some (str "missing protocol scheme") else none,
    roundTrip := fun tls req =>
      if tls.RootCAs = [] then .error (str "x509: certificate signed by unknown authority")
      else if req.Method = str "POST" then .ok stsResp
      else .ok resourceResp,
    jsonUnmarshal := demoJSON }

/-- A valid CA file. -/
def goodCA : GoString := str "-----BEGIN CERTIFICATE-----"

/-- The STS answer of the end-to-end scenario. -/
def tokenResp : http.Response :=
  ⟨200, str "200 OK", [], (tokenJSON, none)⟩

/-- An STS answer with status 403. -/
def deniedResp : http.Response := ⟨403, str "403 Forbidden", [], (str "denied", none)⟩

/-- An STS answer with status 200 and a body that is not JSON. -/
def malformedResp : http.Response := ⟨200, str "200 OK", [], (str "\x7b", none)⟩

/-- An STS answer with status 200 and an empty JSON object as body. -/
def emptyTokenResp : http.Response := ⟨200, str "200 OK", [], (str "\x7b\x7d", none)⟩

/-- A resource answer with status 401. -/
def unauthorizedResp : http.Response := ⟨401, str "401 Unauthorized", [], (str "no", none)⟩

/-- An STS answer with status 302: a redirect to "https://sts:8081/v2". -/
def movedResp : http.Response :=
  ⟨302, str "302 Found", [(str "Location", [str "https://sts:8081/v2"])], (str "moved", none)⟩

/-- A network in which the STS answers the token-exchange POST with `movedResp`
and the request for "https://sts:8081/v2" with `tokenResp`, and the resource
server answers with `unauthorizedResp`.  A `Location` that is a full URL
resolves to itself, and a hop carries only a `Referer`. -/
def redirectNetwork : http.Network :=
  { transport := fun _ req =>
      if req.Method = str "POST" then .ok movedResp
      else if req.URL = str "https://sts:8081/v2" then .ok tokenResp
      else .ok unauthorizedResp,
    resolveReference := fun _ loc => .ok loc,
    redirectHeader := fun _ last _ => [(str "Referer", [last.URL])] }

/-! ## Normal forms of the two phases -/

set_option maxRecDepth 100000

theorem validMethod_GET : http.validMethod (str "GET") = true := by decide

theorem validMethod_POST : http.validMethod (str "POST") = true := by decide

theorem canonical_Authorization :
    http.CanonicalMIMEHeaderKey (str "Authorization") = str "Authorization" := by decide

theorem canonical_ContentType :
    http.CanonicalMIMEHeaderKey (str "Content-Type") = str "Content-Type" := by decide

theorem GET_ne_nil : str "GET" ≠ [] := by decide

theorem POST_ne_nil : str "POST" ≠ [] := by decide

theorem GET_ne_POST : str "GET" ≠ str "POST" := by decide

theorem NewRequest_GET (w : World) (u : GoString) :
    http.NewRequest w (str "GET") u none =
      match w.urlParse u with
      | some err => .error err
      | none => .ok { Method := str "GET", URL := u, Header := [], Body := none } := by
  simp [http.NewRequest, GET_ne_nil, validMethod_GET, url.Values.empty]

theorem NewRequest_POST (w : World) (u b : GoString) :
    http.NewRequest w (str "POST") u (some b) =
      match w.urlParse u with
      | some err => .error err
      | none => .ok { Method := str "POST", URL := u, Header := [], Body := some b } := by
  simp [http.NewRequest, POST_ne_nil, validMethod_POST, url.Values.empty]

theorem authenticatedFetch_eq (cfg : Flags) (w : World) (cert : TLSCertificate)
    (pool : CertPool) (r : TokenResponse) :
    authenticatedFetch cfg w cert pool r =
      match w.urlParse cfg.resourceAddress with
      | some _ => ⟨[.print (str "Can not get Resource\n")], 0⟩
      | none =>
        match w.roundTrip (resourceTLS cfg cert pool) (bearerRequest cfg r.AccessToken) with
        | .error err =>
          ⟨[.send (resourceTLS cfg cert pool) (bearerRequest cfg r.AccessToken),
            .print (str "Error on response.\n[ERROR] " ++ err ++ str "\n")], 0⟩
        | .ok resp =>
          match resp.Body with
          | (_, some err) =>
            ⟨[.send (resourceTLS cfg cert pool) (bearerRequest cfg r.AccessToken),
              .print (str "Error while reading the response bytes: " ++ err ++ str "\n")], 0⟩
          | (resourceBody, none) =>
            ⟨[.send (resourceTLS cfg cert pool) (bearerRequest cfg r.AccessToken),
              .logPrintln resourceBody], 0⟩ := by
  unfold authenticatedFetch
  rw [NewRequest_GET]
  cases h : w.urlParse cfg.resourceAddress with
  | some e => rfl
  | none =>
    have hreq : http.Request.mk (str "GET") cfg.resourceAddress
        (http.Header.Add [] (str "Authorization") (str "Bearer " ++ r.AccessToken)) none
          = bearerRequest cfg r.AccessToken := by
      simp [http.Header.Add, canonical_Authorization, url.Values.Add, bearerRequest]
    simp only [http.Client.Do, hreq]
    show (match ((_ : List Event), w.roundTrip (resourceTLS cfg cert pool) _) with
      | (sent, .error err) => _ | (sent, .ok resp) => _ : Run) = _
    cases h2 : w.roundTrip (resourceTLS cfg cert pool) (bearerRequest cfg r.AccessToken) with
    | error e => rfl
    | ok resp =>
      simp only []
      rcases hb : resp.Body with ⟨b, _ | e⟩ <;> simp [resourceTLS]

theorem tokenExchange_eq (cfg : Flags) (w : World) (cert : TLSCertificate) (pool : CertPool) :
    tokenExchange cfg w cert pool =
      match w.urlParse cfg.stsAddress with
      | some err => ⟨[.print (str "Error: could not connect " ++ err)], 0⟩
      | none =>
        match w.roundTrip (stsTLS cfg cert pool) (postRequest cfg) with
        | .error err =>
          ⟨[.send (stsTLS cfg cert pool) (postRequest cfg),
            .print (str "Error: could not connect " ++ err)], 0⟩
        | .ok stsResp =>
          if stsResp.StatusCode ≠ 200 then
            ⟨[.send (stsTLS cfg cert pool) (postRequest cfg),
              .print (str "Unable to exchange token " ++ stsResp.Body.1 ++ str ",  "
                ++ fmtErr stsResp.Body.2)], 0⟩
          else
            match stsResp.Body with
            | (_, some err) =>
              ⟨[.send (stsTLS cfg cert pool) (postRequest cfg), .print (err ++ str "\n")], 0⟩
            | (body, none) =>
              match w.jsonUnmarshal body with
              | .error _ =>
                ⟨[.send (stsTLS cfg cert pool) (postRequest cfg),
                  .print (stsResp.Status ++ str "\n"),
                  .print (str "Can not unmarshal JSON\n")], 0⟩
              | .ok result =>
                Run.after
                  [.send (stsTLS cfg cert pool) (postRequest cfg),
                   .print (stsResp.Status ++ str "\n"),
                   .print (str "STS Token: " ++ result.AccessToken ++ str "\n")]
                  (authenticatedFetch cfg w cert pool result) := by
  unfold tokenExchange
  simp only [http.Client.PostForm, http.Client.Post]
  rw [NewRequest_POST]
  cases h : w.urlParse cfg.stsAddress with
  | some e => rfl
  | none =>
    have hreq : http.Request.mk (str "POST") cfg.stsAddress
        (http.Header.Set [] (str "Content-Type") (str "application/x-www-form-urlencoded"))
        (some (tokenExchangeForm cfg).Encode) = postRequest cfg := by
      simp [http.Header.Set, canonical_ContentType, postRequest]
    simp only [http.Client.Do, hreq]
    show (match ((_ : List Event), w.roundTrip (stsTLS cfg cert pool) _) with
      | (sent, .error err) => _ | (sent, .ok resp) => _ : Run) = _
    cases h2 : w.roundTrip (stsTLS cfg cert pool) (postRequest cfg) with
    | error e => rfl
    | ok resp =>
      simp only [http.StatusOK]
      by_cases hs : resp.StatusCode = 200
      · simp only [hs, ne_eq, not_true_eq_false, if_false]
        rcases hb : resp.Body with ⟨b, _ | e⟩
        · simp only []
          cases hj : w.jsonUnmarshal b <;> simp [stsTLS]
        · simp [stsTLS]
      · simp only [ne_eq, hs, not_false_eq_true, if_true]
        simp [stsTLS]

/-! ## The shape of a run, step by step -/

/-- With the CA file read and the key pair loaded, `main` is the exchange. -/
theorem main_loaded (cfg : Flags) (w : World) (ca : GoString) (cert : TLSCertificate)
    (hca : w.readFile cfg.tlsCA = .ok ca)
    (hcert : w.loadX509KeyPair cfg.tlsCert cfg.tlsKey = .ok cert) :
    main cfg w = tokenExchange cfg w cert (w.certsFromPEM ca) := by
  simp [main, hca, hcert]

/-- A run that hands a request to a client has read the CA file and loaded the key pair. -/
theorem main_send_loaded (cfg : Flags) (w : World) (tls : TLSConfig) (req : http.Request)
    (h : Event.send tls req ∈ (main cfg w).events) :
    ∃ ca cert, w.readFile cfg.tlsCA = .ok ca
      ∧ w.loadX509KeyPair cfg.tlsCert cfg.tlsKey = .ok cert := by
  unfold main at h
  cases hca : w.readFile cfg.tlsCA with
  | error e => simp [hca] at h
  | ok ca =>
    cases hcert : w.loadX509KeyPair cfg.tlsCert cfg.tlsKey with
    | error e => simp [hca, hcert] at h
    | ok cert => exact ⟨ca, cert, rfl, rfl⟩

theorem bearerRequest_Method (cfg : Flags) (t : GoString) :
    (bearerRequest cfg t).Method = str "GET" := rfl

theorem postRequest_Method (cfg : Flags) : (postRequest cfg).Method = str "POST" := rfl

/-- The exchange when the STS answers with status 200, a body read to the end and
a body that `json.Unmarshal` accepts. -/
theorem tokenExchange_token (cfg : Flags) (w : World) (cert : TLSCertificate) (pool : CertPool)
    (resp : http.Response) (body : GoString) (result : TokenResponse)
    (hu : w.urlParse cfg.stsAddress = none)
    (hr : w.roundTrip (stsTLS cfg cert pool) (postRequest cfg) = .ok resp)
    (hs : resp.StatusCode = 200) (hb : resp.Body = (body, none))
    (hj : w.jsonUnmarshal body = .ok result) :
    tokenExchange cfg w cert pool =
      Run.after
        [.send (stsTLS cfg cert pool) (postRequest cfg),
         .print (resp.Status ++ str "\n"),
         .print (str "STS Token: " ++ result.AccessToken ++ str "\n")]
        (authenticatedFetch cfg w cert pool result) := by
  rw [tokenExchange_eq]
  simp [hu, hr, hs, hb, hj]

/-- The fetch hands at most the bearer request to a client. -/
theorem authenticatedFetch_send (cfg : Flags) (w : World) (cert : TLSCertificate)
    (pool : CertPool) (r : TokenResponse) (tls : TLSConfig) (req : http.Request)
    (h : Event.send tls req ∈ (authenticatedFetch cfg w cert pool r).events) :
    w.urlParse cfg.resourceAddress = none ∧ tls = resourceTLS cfg cert pool
      ∧ req = bearerRequest cfg r.AccessToken := by
  rw [authenticatedFetch_eq] at h
  cases hu : w.urlParse cfg.resourceAddress with
  | some e => simp [hu] at h
  | none =>
    simp only [hu] at h
    cases hr : w.roundTrip (resourceTLS cfg cert pool) (bearerRequest cfg r.AccessToken) with
    | error e => simpa [hr] using h
    | ok resp =>
      simp only [hr] at h
      rcases hb : resp.Body with ⟨b, _ | e⟩ <;> simpa [hb] using h

/-- A POST handed to a client is the token-exchange request, on the STS configuration. -/
theorem tokenExchange_send_post (cfg : Flags) (w : World) (cert : TLSCertificate)
    (pool : CertPool) (tls : TLSConfig) (req : http.Request)
    (h : Event.send tls req ∈ (tokenExchange cfg w cert pool).events)
    (hm : req.Method = str "POST") :
    w.urlParse cfg.stsAddress = none ∧ tls = stsTLS cfg cert pool ∧ req = postRequest cfg := by
  rw [tokenExchange_eq] at h
  cases hu : w.urlParse cfg.stsAddress with
  | some e => simp [hu] at h
  | none =>
    simp only [hu] at h
    cases hr : w.roundTrip (stsTLS cfg cert pool) (postRequest cfg) with
    | error e => simpa [hr] using h
    | ok resp =>
      simp only [hr] at h
      by_cases hs : resp.StatusCode = 200
      · rcases hb : resp.Body with ⟨b, _ | e⟩
        · cases hj : w.jsonUnmarshal b with
          | error e => simpa [hs, hb, hj] using h
          | ok result =>
            simp only [hs, hb, hj, ne_eq, not_true_eq_false, if_false, Run.after,
              List.mem_append, List.mem_cons, Event.send.injEq, reduceCtorEq,
              List.not_mem_nil, or_false, false_or] at h
            rcases h with h | h
            · exact ⟨rfl, h.1, h.2⟩
            · have := (authenticatedFetch_send cfg w cert pool result tls req h).2.2
              rw [this, bearerRequest_Method] at hm
              exact absurd hm GET_ne_POST
        · simpa [hs, hb] using h
      · simpa [hs] using h

/-- A GET handed to a client is the bearer request, on the resource configuration, and
it comes after a successful exchange. -/
theorem tokenExchange_send_get (cfg : Flags) (w : World) (cert : TLSCertificate)
    (pool : CertPool) (tls : TLSConfig) (req : http.Request)
    (h : Event.send tls req ∈ (tokenExchange cfg w cert pool).events)
    (hm : req.Method = str "GET") :
    ∃ resp body result, w.urlParse cfg.stsAddress = none
      ∧ w.roundTrip (stsTLS cfg cert pool) (postRequest cfg) = .ok resp
      ∧ resp.StatusCode = 200 ∧ resp.Body = (body, none)
      ∧ w.jsonUnmarshal body = .ok result
      ∧ w.urlParse cfg.resourceAddress = none
      ∧ tls = resourceTLS cfg cert pool ∧ req = bearerRequest cfg result.AccessToken := by
  have key : ∀ t r, Event.send tls req = Event.send t r → r.Method = str "POST" → False := by
    intro t r e hp
    cases e
    rw [hm] at hp
    exact GET_ne_POST hp
  rw [tokenExchange_eq] at h
  cases hu : w.urlParse cfg.stsAddress with
  | some e => simp [hu] at h
  | none =>
    simp only [hu] at h
    cases hr : w.roundTrip (stsTLS cfg cert pool) (postRequest cfg) with
    | error e =>
      simp only [hr, List.mem_cons, reduceCtorEq, List.not_mem_nil, or_false] at h
      exact (key _ _ h rfl).elim
    | ok resp =>
      simp only [hr] at h
      by_cases hs : resp.StatusCode = 200
      · rcases hb : resp.Body with ⟨b, _ | e⟩
        · cases hj : w.jsonUnmarshal b with
          | error e =>
            simp only [hs, hb, hj, ne_eq, not_true_eq_false, if_false, List.mem_cons,
              reduceCtorEq, List.not_mem_nil, or_false] at h
            exact (key _ _ h rfl).elim
          | ok result =>
            simp only [hs, hb, hj, ne_eq, not_true_eq_false, if_false, Run.after,
              List.mem_append, List.mem_cons, reduceCtorEq,
              List.not_mem_nil, or_false, false_or] at h
            rcases h with h | h
            · exact (key _ _ h rfl).elim
            · have := authenticatedFetch_send cfg w cert pool result tls req h
              exact ⟨resp, b, result, rfl, rfl, hs, hb, hj, this⟩
        · simp only [hs, hb, ne_eq, not_true_eq_false, if_false, List.mem_cons,
            reduceCtorEq, List.not_mem_nil, or_false] at h
          exact (key _ _ h rfl).elim
      · simp only [hs, ne_eq, not_false_eq_true, if_true, List.mem_cons,
          reduceCtorEq, List.not_mem_nil, or_false] at h
        exact (key _ _ h rfl).elim

/-- The requests of the fetch: the bearer request when `http.NewRequest` accepts
`resourceAddress`, none otherwise. -/
theorem authenticatedFetch_sent (cfg : Flags) (w : World) (cert : TLSCertificate)
    (pool : CertPool) (r : TokenResponse) :
    (authenticatedFetch cfg w cert pool r).sent =
      if w.urlParse cfg.resourceAddress = none then
        [(resourceTLS cfg cert pool, bearerRequest cfg r.AccessToken)]
      else [] := by
  rw [authenticatedFetch_eq]
  cases hu : w.urlParse cfg.resourceAddress with
  | some e => simp [Run.sent, Event.request]
  | none =>
    simp only [if_true]
    cases hr : w.roundTrip (resourceTLS cfg cert pool) (bearerRequest cfg r.AccessToken) with
    | error e => simp [Run.sent, Event.request]
    | ok resp => rcases hb : resp.Body with ⟨b, _ | e⟩ <;> simp [hb, Run.sent, Event.request]

/-- The GET requests of a run whose exchange succeeded with the token response `result`. -/
theorem gets_after_token (cfg : Flags) (w : World) (cert : TLSCertificate) (pool : CertPool)
    (resp : http.Response) (result : TokenResponse) :
    (Run.after
        [.send (stsTLS cfg cert pool) (postRequest cfg),
         .print (resp.Status ++ str "\n"),
         .print (str "STS Token: " ++ result.AccessToken ++ str "\n")]
        (authenticatedFetch cfg w cert pool result)).gets =
      if w.urlParse cfg.resourceAddress = none then
        [(resourceTLS cfg cert pool, bearerRequest cfg result.AccessToken)]
      else [] := by
  have h := authenticatedFetch_sent cfg w cert pool result
  simp only [Run.sent] at h
  simp only [Run.gets, Run.sent, Run.after, List.filterMap_append, h]
  by_cases hu : w.urlParse cfg.resourceAddress = none
  · simp [hu, Event.request, postRequest_Method, bearerRequest_Method, Ne.symm GET_ne_POST]
  · simp [hu, Event.request, postRequest_Method, Ne.symm GET_ne_POST]

/-- A run in which the STS POST came back with status 200 and a decodable body. -/
theorem main_token (cfg : Flags) (w : World) (tls : TLSConfig) (post : http.Request)
    (resp : http.Response) (body : GoString) (result : TokenResponse)
    (hsent : Event.send tls post ∈ (main cfg w).events) (hpost : post.Method = str "POST")
    (hresp : w.roundTrip tls post = .ok resp) (h200 : resp.StatusCode = 200)
    (hbody : resp.Body = (body, none)) (hjson : w.jsonUnmarshal body = .ok result) :
    ∃ ca cert, w.readFile cfg.tlsCA = .ok ca
      ∧ w.loadX509KeyPair cfg.tlsCert cfg.tlsKey = .ok cert
      ∧ tls = stsTLS cfg cert (w.certsFromPEM ca) ∧ post = postRequest cfg
      ∧ main cfg w =
        Run.after
          [.send tls post, .print (resp.Status ++ str "\n"),
           .print (str "STS Token: " ++ result.AccessToken ++ str "\n")]
          (authenticatedFetch cfg w cert (w.certsFromPEM ca) result) := by
  obtain ⟨ca, cert, hca, hcert⟩ := main_send_loaded cfg w tls post hsent
  have hm := main_loaded cfg w ca cert hca hcert
  rw [hm] at hsent
  obtain ⟨hu, htls, hreq⟩ := tokenExchange_send_post cfg w cert _ tls post hsent hpost
  subst htls hreq
  exact ⟨ca, cert, hca, hcert, rfl, rfl,
    hm.trans (tokenExchange_token cfg w cert _ resp body result hu hresp h200 hbody hjson)⟩

/-! ## Claims about the bearer request -/

/-- C1. In every run in which the STS POST returns status 200 with a body that
`json.Unmarshal` decodes into a `TokenResponse` with access token `t`, the GET
requests handed to the resource client are: the single request GET
`resourceAddress`, without body, whose header map has the one entry
`Authorization` with the one value `"Bearer " ++ t` (and it is handed to the
client whenever `http.NewRequest` accepts `resourceAddress`; when it does not,
no request is handed to the resource client at all). -/
theorem bearer_header_exact (cfg : Flags) (w : World) (tls : TLSConfig) (post : http.Request)
    (resp : http.Response) (body : GoString) (result : TokenResponse)
    (hsent : Event.send tls post ∈ (main cfg w).events) (hpost : post.Method = str "POST")
    (hresp : w.roundTrip tls post = .ok resp) (h200 : resp.StatusCode = 200)
    (hbody : resp.Body = (body, none)) (hjson : w.jsonUnmarshal body = .ok result) :
    (∀ p ∈ (main cfg w).gets,
        p.2 = { Method := str "GET", URL := cfg.resourceAddress,
                Header := [(str "Authorization", [str "Bearer " ++ result.AccessToken])],
                Body := none })
      ∧ (main cfg w).gets.length ≤ 1
      ∧ (w.urlParse cfg.resourceAddress = none → (main cfg w).gets.length = 1) := by
  obtain ⟨ca, cert, -, -, htls, hreq, hm⟩ :=
    main_token cfg w tls post resp body result hsent hpost hresp h200 hbody hjson
  subst htls hreq
  rw [hm, gets_after_token]
  by_cases hu : w.urlParse cfg.resourceAddress = none
  · simp [hu, bearerRequest]
  · simp [hu]

/-- C1, on the end-to-end scenario: the STS answers
the JSON object `tokenJSON` with status 200. -/
theorem bearer_header_exact_witness :
    (∀ p ∈ (main demoFlags (demoWorld goodCA tokenResp unauthorizedResp)).gets,
        p.2 = { Method := str "GET", URL := str "https://svc:8443",
                Header := [(str "Authorization", [str "Bearer " ++ str "TKN123"])],
                Body := none })
      ∧ (main demoFlags (demoWorld goodCA tokenResp unauthorizedResp)).gets.length ≤ 1
      ∧ ((demoWorld goodCA tokenResp unauthorizedResp).urlParse (str "https://svc:8443") = none →
          (main demoFlags (demoWorld goodCA tokenResp unauthorizedResp)).gets.length = 1) :=
  bearer_header_exact demoFlags (demoWorld goodCA tokenResp unauthorizedResp)
    (stsTLS demoFlags ⟨[str "alice"], str "alice-key"⟩ [str "CA"]) (postRequest demoFlags)
    tokenResp (tokenJSON)
    { AccessToken := str "TKN123", IssuedTokenType := [], TokenType := str "Bearer",
      ExpiresIn := 0, Scope := [], RefreshToken := [] }
    (by decide) rfl rfl rfl rfl rfl

/-! ## Claims about the exchange -/

/-- A response that is not a redirect, or that names no `Location`, is what
`Client.Do` returns, after the one request. -/
theorem follow_returned (net : http.Network) (tls : TLSConfig) (req : http.Request)
    (resp : http.Response) (h : net.transport tls req = .ok resp)
    (hn : (resp.StatusCode ≠ 301 ∧ resp.StatusCode ≠ 302 ∧ resp.StatusCode ≠ 303
            ∧ resp.StatusCode ≠ 307 ∧ resp.StatusCode ≠ 308)
          ∨ resp.Header.Get (str "Location") = []) :
    http.Client.follow net tls req = ([req], .ok resp) := by
  unfold http.Client.follow http.Client.doLoop
  rcases hn with ⟨h1, h2, h3, h4, h5⟩ | hl
  · simp [h, http.redirectBehavior, h1, h2, h3, h4, h5]
  · simp only [h, hl, if_true]
    split <;> rfl

/-- The run after a POST that came back with a status other than 200. -/
theorem main_rejected (cfg : Flags) (w : World) (tls : TLSConfig) (post : http.Request)
    (resp : http.Response) (b : GoString) (rerr : Option GoError)
    (hsent : Event.send tls post ∈ (main cfg w).events) (hpost : post.Method = str "POST")
    (hresp : w.roundTrip tls post = .ok resp) (hstatus : resp.StatusCode ≠ 200)
    (hbody : resp.Body = (b, rerr)) :
    (main cfg w).events =
        [.send tls post,
         .print (str "Unable to exchange token " ++ b ++ str ",  " ++ fmtErr rerr)]
      ∧ (main cfg w).exitCode = 0 ∧ (main cfg w).gets = [] := by
  obtain ⟨ca, cert, hca, hcert⟩ := main_send_loaded cfg w tls post hsent
  have hm := main_loaded cfg w ca cert hca hcert
  rw [hm] at hsent
  obtain ⟨hu, htls, hreq⟩ := tokenExchange_send_post cfg w cert _ tls post hsent hpost
  subst htls hreq
  rw [hm, tokenExchange_eq]
  simp [hu, hresp, hstatus, hbody, Run.gets, Run.sent, Event.request, postRequest_Method,
    Ne.symm GET_ne_POST]

/-- C2, as stated, fails: the STS answers the token-exchange POST with status
302, a `Location` and the body "moved".  The client (no `CheckRedirect`)
follows the redirect with a GET for the new URL, which the STS answers with
status 200 and a token; `PostForm` returns that second response, no
rejection is reported, the body "moved" appears nowhere, and the GET to the
resource server is made. -/
theorem followed_redirect_counterexample :
    (redirectNetwork.transport (stsTLS demoFlags ⟨[str "alice"], str "alice-key"⟩ [str "CA"])
          (postRequest demoFlags) = .ok movedResp
      ∧ movedResp.StatusCode = 302 ∧ movedResp.Body = (str "moved", none))
    ∧ http.Client.follow redirectNetwork
          (stsTLS demoFlags ⟨[str "alice"], str "alice-key"⟩ [str "CA"]) (postRequest demoFlags)
        = ([postRequest demoFlags,
            { Method := str "GET", URL := str "https://sts:8081/v2",
              Header := [(str "Referer", [str "https://sts:8081"])], Body := none }],
           .ok tokenResp)
    ∧ (main demoFlags
          ((demoWorld goodCA tokenResp unauthorizedResp).overNetwork redirectNetwork)).events
        = [.send (stsTLS demoFlags ⟨[str "alice"], str "alice-key"⟩ [str "CA"])
              (postRequest demoFlags),
           .print (str "200 OK\n"), .print (str "STS Token: TKN123\n"),
           .send (resourceTLS demoFlags ⟨[str "alice"], str "alice-key"⟩ [str "CA"])
              (bearerRequest demoFlags (str "TKN123")),
           .logPrintln (str "no")]
    ∧ (main demoFlags
          ((demoWorld goodCA tokenResp unauthorizedResp).overNetwork redirectNetwork)).gets
        = [(resourceTLS demoFlags ⟨[str "alice"], str "alice-key"⟩ [str "CA"],
            bearerRequest demoFlags (str "TKN123"))] := by
  exact ⟨⟨rfl, rfl, rfl⟩, rfl, by decide, by decide⟩

/-- C2, amended. (1) For every response that `PostForm` returns to `main` with
a status code other than 200, whatever `ioutil.ReadAll` returns for its body
(the bytes `b` and possibly a read error), the run consists of the POST and
one report on standard output, the report is "Unable to exchange token "
followed by `b` unchanged, ",  " and the read error (`<nil>` if none); `main`
then returns, and no GET request is handed to any client.  (2) Over any
network, an STS response to the POST with a status code other than 200 that
the client does not follow as a redirect (its status is none of 301, 302,
303, 307, 308, or it has no `Location`) is the response `PostForm` returns,
so the run is the same: the POST, the report with the body unchanged, no
GET. -/
theorem exchange_rejected (cfg : Flags) (w : World) :
    (∀ tls post resp b rerr, Event.send tls post ∈ (main cfg w).events →
      post.Method = str "POST" → w.roundTrip tls post = .ok resp →
      resp.StatusCode ≠ 200 → resp.Body = (b, rerr) →
      (main cfg w).events =
          [.send tls post,
           .print (str "Unable to exchange token " ++ b ++ str ",  " ++ fmtErr rerr)]
        ∧ (main cfg w).exitCode = 0 ∧ (main cfg w).gets = [])
    ∧ (∀ (net : http.Network) tls post resp b rerr,
      Event.send tls post ∈ (main cfg (w.overNetwork net)).events →
      post.Method = str "POST" → net.transport tls post = .ok resp →
      resp.StatusCode ≠ 200 →
      ((resp.StatusCode ≠ 301 ∧ resp.StatusCode ≠ 302 ∧ resp.StatusCode ≠ 303
          ∧ resp.StatusCode ≠ 307 ∧ resp.StatusCode ≠ 308)
        ∨ resp.Header.Get (str "Location") = []) →
      resp.Body = (b, rerr) →
      (main cfg (w.overNetwork net)).events =
          [.send tls post,
           .print (str "Unable to exchange token " ++ b ++ str ",  " ++ fmtErr rerr)]
        ∧ (main cfg (w.overNetwork net)).exitCode = 0
        ∧ (main cfg (w.overNetwork net)).gets = []) := by
  constructor
  · intro tls post resp b rerr hsent hpost hresp hstatus hbody
    exact main_rejected cfg w tls post resp b rerr hsent hpost hresp hstatus hbody
  · intro net tls post resp b rerr hsent hpost hresp hstatus hn hbody
    have hr : (w.overNetwork net).roundTrip tls post = .ok resp := by
      show (http.Client.follow net tls post).2 = .ok resp
      rw [follow_returned net tls post resp hresp hn]
    exact main_rejected cfg _ tls post resp b rerr hsent hpost hr hstatus hbody

/-- C2, amended, part (1), on a world whose STS answers 403 with the body "denied". -/
theorem exchange_rejected_witness :
    (main demoFlags (demoWorld goodCA deniedResp unauthorizedResp)).events =
        [.send (stsTLS demoFlags ⟨[str "alice"], str "alice-key"⟩ [str "CA"])
            (postRequest demoFlags),
         .print (str "Unable to exchange token " ++ str "denied" ++ str ",  " ++ fmtErr none)]
      ∧ (main demoFlags (demoWorld goodCA deniedResp unauthorizedResp)).exitCode = 0
      ∧ (main demoFlags (demoWorld goodCA deniedResp unauthorizedResp)).gets = [] :=
  (exchange_rejected demoFlags (demoWorld goodCA deniedResp unauthorizedResp)).1
    (stsTLS demoFlags ⟨[str "alice"], str "alice-key"⟩ [str "CA"]) (postRequest demoFlags)
    deniedResp (str "denied") none (by decide) rfl rfl (by decide) rfl

/-- C3. (1) If a GET request is handed to a client in a run of `main`, then the
run starts with exactly one POST, that POST came back without transport error,
with status 200, its body was read to the end, and `json.Unmarshal` accepted the
body; between the POST and the GET there are only the two prints, and after the
GET no request follows.  (2) If the POST comes back with status 200 and a body,
read to the end, that `json.Unmarshal` rejects, the run is the POST, the status
line and the report "Can not unmarshal JSON"; `main` returns and no GET request
is handed to any client. -/
theorem fetch_only_after_exchange (cfg : Flags) (w : World) :
    (∀ tls req, Event.send tls req ∈ (main cfg w).events → req.Method = str "GET" →
      ∃ stls post resp body result rest,
        (main cfg w).events =
            [.send stls post, .print (resp.Status ++ str "\n"),
             .print (str "STS Token: " ++ result.AccessToken ++ str "\n"),
             .send tls req] ++ rest
          ∧ post.Method = str "POST" ∧ (∀ e ∈ rest, e.request = none)
          ∧ w.roundTrip stls post = .ok resp ∧ resp.StatusCode = 200
          ∧ resp.Body = (body, none) ∧ w.jsonUnmarshal body = .ok result)
    ∧ (∀ stls post resp body err, Event.send stls post ∈ (main cfg w).events →
        post.Method = str "POST" → w.roundTrip stls post = .ok resp →
        resp.StatusCode = 200 → resp.Body = (body, none) →
        w.jsonUnmarshal body = .error err →
        (main cfg w).events =
            [.send stls post, .print (resp.Status ++ str "\n"),
             .print (str "Can not unmarshal JSON\n")]
          ∧ (main cfg w).exitCode = 0 ∧ (main cfg w).gets = []) := by
  constructor
  · intro tls req hsent hget
    obtain ⟨ca, cert, hca, hcert⟩ := main_send_loaded cfg w tls req hsent
    have hm := main_loaded cfg w ca cert hca hcert
    rw [hm] at hsent
    obtain ⟨resp, body, result, hu, hr, hs, hb, hj, hu2, htls, hreq⟩ :=
      tokenExchange_send_get cfg w cert _ tls req hsent hget
    subst htls hreq
    rw [hm, tokenExchange_token cfg w cert _ resp body result hu hr hs hb hj,
      authenticatedFetch_eq]
    simp only [hu2]
    refine ⟨stsTLS cfg cert (w.certsFromPEM ca), postRequest cfg, resp, body, result, ?_⟩
    cases hr2 : w.roundTrip (resourceTLS cfg cert (w.certsFromPEM ca))
        (bearerRequest cfg result.AccessToken) with
    | error e =>
      exact ⟨[.print (str "Error on response.\n[ERROR] " ++ e ++ str "\n")],
        by simp [Run.after], rfl, by simp [Event.request], hr, hs, hb, hj⟩
    | ok rresp =>
      rcases hb2 : rresp.Body with ⟨rb, _ | e⟩
      · exact ⟨[.logPrintln rb], by simp [Run.after, hb2], rfl, by simp [Event.request],
          hr, hs, hb, hj⟩
      · exact ⟨[.print (str "Error while reading the response bytes: " ++ e ++ str "\n")],
          by simp [Run.after, hb2], rfl, by simp [Event.request], hr, hs, hb, hj⟩
  · intro stls post resp body err hsent hpost hresp h200 hbody hjson
    obtain ⟨ca, cert, hca, hcert⟩ := main_send_loaded cfg w stls post hsent
    have hm := main_loaded cfg w ca cert hca hcert
    rw [hm] at hsent
    obtain ⟨hu, htls, hreq⟩ := tokenExchange_send_post cfg w cert _ stls post hsent hpost
    subst htls hreq
    rw [hm, tokenExchange_eq]
    simp [hu, hresp, h200, hbody, hjson, Run.gets, Run.sent, Event.request,
      postRequest_Method, Ne.symm GET_ne_POST]

/-- C3, part (2), on a world whose STS answers 200 with a body that is not JSON. -/
theorem fetch_only_after_exchange_witness :
    (main demoFlags (demoWorld goodCA malformedResp unauthorizedResp)).events =
        [.send (stsTLS demoFlags ⟨[str "alice"], str "alice-key"⟩ [str "CA"])
            (postRequest demoFlags),
         .print (str "200 OK" ++ str "\n"), .print (str "Can not unmarshal JSON\n")]
      ∧ (main demoFlags (demoWorld goodCA malformedResp unauthorizedResp)).exitCode = 0
      ∧ (main demoFlags (demoWorld goodCA malformedResp unauthorizedResp)).gets = [] :=
  (fetch_only_after_exchange demoFlags (demoWorld goodCA malformedResp unauthorizedResp)).2
    (stsTLS demoFlags ⟨[str "alice"], str "alice-key"⟩ [str "CA"]) (postRequest demoFlags)
    malformedResp (str "\x7b") (str "unexpected end of JSON input")
    (by decide) rfl rfl rfl rfl rfl

/-! ## Claims about the fetch -/

theorem withResourceStatus_post (w : World) (code : Int) (status : GoString)
    (tls : TLSConfig) (cfg : Flags) :
    (w.withResourceStatus code status).roundTrip tls (postRequest cfg)
      = w.roundTrip tls (postRequest cfg) := by
  simp [World.withResourceStatus, postRequest_Method, Ne.symm GET_ne_POST]

theorem withResourceStatus_get (w : World) (code : Int) (status : GoString)
    (tls : TLSConfig) (cfg : Flags) (t : GoString) :
    (w.withResourceStatus code status).roundTrip tls (bearerRequest cfg t)
      = match w.roundTrip tls (bearerRequest cfg t) with
        | .ok resp => .ok { resp with StatusCode := code, Status := status }
        | .error err => .error err := by
  simp [World.withResourceStatus, bearerRequest_Method]

theorem authenticatedFetch_withResourceStatus (cfg : Flags) (w : World) (cert : TLSCertificate)
    (pool : CertPool) (r : TokenResponse) (code : Int) (status : GoString) :
    authenticatedFetch cfg (w.withResourceStatus code status) cert pool r
      = authenticatedFetch cfg w cert pool r := by
  rw [authenticatedFetch_eq, authenticatedFetch_eq, withResourceStatus_get]
  have hu : (w.withResourceStatus code status).urlParse = w.urlParse := rfl
  rw [hu]
  cases w.urlParse cfg.resourceAddress with
  | some e => rfl
  | none =>
    cases w.roundTrip (resourceTLS cfg cert pool) (bearerRequest cfg r.AccessToken) with
    | error e => rfl
    | ok resp => rfl

theorem tokenExchange_withResourceStatus (cfg : Flags) (w : World) (cert : TLSCertificate)
    (pool : CertPool) (code : Int) (status : GoString) :
    tokenExchange cfg (w.withResourceStatus code status) cert pool
      = tokenExchange cfg w cert pool := by
  rw [tokenExchange_eq, tokenExchange_eq, withResourceStatus_post]
  have hu : (w.withResourceStatus code status).urlParse = w.urlParse := rfl
  have hj : (w.withResourceStatus code status).jsonUnmarshal = w.jsonUnmarshal := rfl
  simp only [hu, hj, authenticatedFetch_withResourceStatus]

/-- C9. (1) For every response to the GET that arrives without transport error
and whose body is read to the end as the bytes `b`, the run ends with the GET
followed by the one log line with message `b`, nothing was logged before, and
`main` returns normally (exit status 0); the status code of the response plays
no part.  (2) Replacing, in any world, the status code and status line of the
responses to GET requests by any other code and line leaves the whole run
(events and exit status) unchanged. -/
theorem fetch_logs_body_any_status (cfg : Flags) (w : World) :
    (∀ tls req resp b, Event.send tls req ∈ (main cfg w).events → req.Method = str "GET" →
      w.roundTrip tls req = .ok resp → resp.Body = (b, none) →
      (∃ pre, (main cfg w).events = pre ++ [.send tls req, .logPrintln b]
          ∧ ∀ m, Event.logPrintln m ∉ pre)
        ∧ (main cfg w).exitCode = 0)
    ∧ (∀ code status, main cfg (w.withResourceStatus code status) = main cfg w) := by
  constructor
  · intro tls req rresp rb hsent hget hrr hrb
    obtain ⟨ca, cert, hca, hcert⟩ := main_send_loaded cfg w tls req hsent
    have hm := main_loaded cfg w ca cert hca hcert
    rw [hm] at hsent
    obtain ⟨resp, body, result, hu, hr, hs, hb, hj, hu2, htls, hreq⟩ :=
      tokenExchange_send_get cfg w cert _ tls req hsent hget
    subst htls hreq
    rw [hm, tokenExchange_token cfg w cert _ resp body result hu hr hs hb hj,
      authenticatedFetch_eq]
    simp only [hu2, hrr, hrb, Run.after]
    exact ⟨⟨[.send (stsTLS cfg cert (w.certsFromPEM ca)) (postRequest cfg),
        .print (resp.Status ++ str "\n"),
        .print (str "STS Token: " ++ result.AccessToken ++ str "\n")], by simp, by simp⟩, trivial⟩
  · intro code status
    have h1 : (w.withResourceStatus code status).readFile = w.readFile := rfl
    have h2 : (w.withResourceStatus code status).loadX509KeyPair = w.loadX509KeyPair := rfl
    have h3 : (w.withResourceStatus code status).certsFromPEM = w.certsFromPEM := rfl
    simp only [main, h1, h2, h3, tokenExchange_withResourceStatus]

/-- C9, part (1), on the end-to-end scenario with a resource server that answers 401
with the body "no". -/
theorem fetch_logs_body_any_status_witness :
    (∃ pre, (main demoFlags (demoWorld goodCA tokenResp unauthorizedResp)).events
          = pre ++ [.send (resourceTLS demoFlags ⟨[str "alice"], str "alice-key"⟩ [str "CA"])
                      (bearerRequest demoFlags (str "TKN123")), .logPrintln (str "no")]
        ∧ ∀ m, Event.logPrintln m ∉ pre)
      ∧ (main demoFlags (demoWorld goodCA tokenResp unauthorizedResp)).exitCode = 0 :=
  (fetch_logs_body_any_status demoFlags (demoWorld goodCA tokenResp unauthorizedResp)).1
    (resourceTLS demoFlags ⟨[str "alice"], str "alice-key"⟩ [str "CA"])
    (bearerRequest demoFlags (str "TKN123")) unauthorizedResp (str "no")
    (by decide) rfl rfl rfl

/-- C10, as stated, fails: the STS answers 200 with an empty JSON object, which
`json.Unmarshal` accepts and which leaves `access_token` empty, but
`resourceAddress` is "://x", which `url.Parse` rejects ("missing protocol
scheme"); `main` prints "Can not get Resource" and returns without any GET. -/
theorem empty_token_no_fetch_counterexample :
    (Event.send (stsTLS demoFlags ⟨[str "alice"], str "alice-key"⟩ [str "CA"])
          (postRequest { demoFlags with resourceAddress := str "://x" })
        ∈ (main { demoFlags with resourceAddress := str "://x" }
            (demoWorld goodCA emptyTokenResp unauthorizedResp)).events
      ∧ (demoWorld goodCA emptyTokenResp unauthorizedResp).roundTrip
            (stsTLS demoFlags ⟨[str "alice"], str "alice-key"⟩ [str "CA"])
            (postRequest { demoFlags with resourceAddress := str "://x" })
          = .ok emptyTokenResp
      ∧ emptyTokenResp.StatusCode = 200
      ∧ emptyTokenResp.Body = (str "\x7b\x7d", none)
      ∧ (demoWorld goodCA emptyTokenResp unauthorizedResp).jsonUnmarshal (str "\x7b\x7d")
          = .ok { AccessToken := [], IssuedTokenType := [], TokenType := [],
                  ExpiresIn := 0, Scope := [], RefreshToken := [] })
    ∧ (main { demoFlags with resourceAddress := str "://x" }
          (demoWorld goodCA emptyTokenResp unauthorizedResp)).gets = []
    ∧ (main { demoFlags with resourceAddress := str "://x" }
          (demoWorld goodCA emptyTokenResp unauthorizedResp)).events.getLast?
        = some (.print (str "Can not get Resource\n")) := by
    exact ⟨⟨by decide, rfl, rfl, rfl, rfl⟩, by decide, by decide⟩

/-- C10, amended. For every STS response with status 200 whose body
`json.Unmarshal` accepts with an empty `access_token`, and every
`resourceAddress` that `http.NewRequest` accepts, `main` does not stop: it
hands to the resource client exactly one GET request, for `resourceAddress`,
whose only header is `Authorization` with the value "Bearer " (the prefix
followed by the empty string). -/
theorem empty_token_still_fetches (cfg : Flags) (w : World) (tls : TLSConfig)
    (post : http.Request) (resp : http.Response) (body : GoString) (result : TokenResponse)
    (hsent : Event.send tls post ∈ (main cfg w).events) (hpost : post.Method = str "POST")
    (hresp : w.roundTrip tls post = .ok resp) (h200 : resp.StatusCode = 200)
    (hbody : resp.Body = (body, none)) (hjson : w.jsonUnmarshal body = .ok result)
    (hempty : result.AccessToken = []) (hurl : w.urlParse cfg.resourceAddress = none) :
    ∃ rtls, (main cfg w).gets =
      [(rtls, { Method := str "GET", URL := cfg.resourceAddress,
                Header := [(str "Authorization", [str "Bearer "])], Body := none })] := by
  obtain ⟨ca, cert, -, -, htls, hreq, hm⟩ :=
    main_token cfg w tls post resp body result hsent hpost hresp h200 hbody hjson
  subst htls hreq
  refine ⟨resourceTLS cfg cert (w.certsFromPEM ca), ?_⟩
  rw [hm, gets_after_token]
  simp [hurl, bearerRequest, hempty]

/-- C10, amended, on a world whose STS answers 200 with an empty JSON object. -/
theorem empty_token_still_fetches_witness :
    ∃ rtls, (main demoFlags (demoWorld goodCA emptyTokenResp unauthorizedResp)).gets =
      [(rtls, { Method := str "GET", URL := str "https://svc:8443",
                Header := [(str "Authorization", [str "Bearer "])], Body := none })] :=
  empty_token_still_fetches demoFlags (demoWorld goodCA emptyTokenResp unauthorizedResp)
    (stsTLS demoFlags ⟨[str "alice"], str "alice-key"⟩ [str "CA"]) (postRequest demoFlags)
    emptyTokenResp (str "\x7b\x7d")
    { AccessToken := [], IssuedTokenType := [], TokenType := [],
      ExpiresIn := 0, Scope := [], RefreshToken := [] }
    (by decide) rfl rfl rfl rfl rfl rfl rfl

/-! ## Claims about configuration errors and the exit status -/

/-- C8, as stated, fails: with a CA file that cannot be read, `main` ends in
`log.Fatalf`, so the process exits with status 1, while the successful run of
the end-to-end scenario exits with status 0. -/
theorem exit_status_counterexample :
    (demoWorld goodCA tokenResp unauthorizedResp).readFile (str "missing.crt")
        = .error (str "open missing.crt: no such file or directory")
      ∧ main { demoFlags with tlsCA := str "missing.crt" }
          (demoWorld goodCA tokenResp unauthorizedResp)
        = ⟨[.fatalf (str "did not read tlsCA: open missing.crt: no such file or directory")], 1⟩
      ∧ (main demoFlags (demoWorld goodCA tokenResp unauthorizedResp)).exitCode = 0
      ∧ (main demoFlags (demoWorld goodCA tokenResp unauthorizedResp)).events.getLast?
          = some (.logPrintln (str "no")) := by
    exact ⟨rfl, by decide, by decide, by decide⟩

/-- C8, amended. (1) When the CA file cannot be read, or (2) when it is read
and the client key pair cannot be loaded, `main` logs a diagnostic through
`log.Fatalf` and the process exits with status 1, nothing else having happened.
(3) With both loaded, each of the seven later failures ends the run with its
own diagnostic printed on standard output, after which `main` returns, so the
exit status is 0, the exit status of the successful run (the last case):
an STS connection error (the request cannot be built, or the call fails)
prints "Error: could not connect " and the error; an STS status other than
200 prints "Unable to exchange token ", the body and the read error; an STS
body read error prints the error; undecodable JSON prints "Can not unmarshal
JSON"; a resource request that cannot be built prints "Can not get
Resource"; a resource connection error prints "Error on response." and the
error; a resource body read error prints "Error while reading the response
bytes: " and the error.  Each run is given in full. -/
theorem exit_status_by_failure (cfg : Flags) (w : World) :
    (∀ err, w.readFile cfg.tlsCA = .error err →
        main cfg w = ⟨[.fatalf (str "did not read tlsCA: " ++ err)], 1⟩)
    ∧ (∀ ca err, w.readFile cfg.tlsCA = .ok ca →
        w.loadX509KeyPair cfg.tlsCert cfg.tlsKey = .error err →
        main cfg w = ⟨[.fatalf (str "did not read client certs: " ++ err)], 1⟩)
    ∧ (∀ ca cert, w.readFile cfg.tlsCA = .ok ca →
        w.loadX509KeyPair cfg.tlsCert cfg.tlsKey = .ok cert →
        (∀ err, w.urlParse cfg.stsAddress = some err →
          main cfg w = ⟨[.print (str "Error: could not connect " ++ err)], 0⟩)
        ∧ (w.urlParse cfg.stsAddress = none →
          (∀ err, w.roundTrip (stsTLS cfg cert (w.certsFromPEM ca)) (postRequest cfg)
              = .error err →
            main cfg w =
              ⟨[.send (stsTLS cfg cert (w.certsFromPEM ca)) (postRequest cfg),
                .print (str "Error: could not connect " ++ err)], 0⟩)
          ∧ (∀ resp, w.roundTrip (stsTLS cfg cert (w.certsFromPEM ca)) (postRequest cfg)
              = .ok resp →
            (resp.StatusCode ≠ 200 →
              main cfg w =
                ⟨[.send (stsTLS cfg cert (w.certsFromPEM ca)) (postRequest cfg),
                  .print (str "Unable to exchange token " ++ resp.Body.1 ++ str ",  "
                    ++ fmtErr resp.Body.2)], 0⟩)
            ∧ (resp.StatusCode = 200 →
              (∀ b err, resp.Body = (b, some err) →
                main cfg w =
                  ⟨[.send (stsTLS cfg cert (w.certsFromPEM ca)) (postRequest cfg),
                    .print (err ++ str "\n")], 0⟩)
              ∧ (∀ b, resp.Body = (b, none) →
                (∀ err, w.jsonUnmarshal b = .error err →
                  main cfg w =
                    ⟨[.send (stsTLS cfg cert (w.certsFromPEM ca)) (postRequest cfg),
                      .print (resp.Status ++ str "\n"),
                      .print (str "Can not unmarshal JSON\n")], 0⟩)
                ∧ (∀ result, w.jsonUnmarshal b = .ok result →
                  (∀ err, w.urlParse cfg.resourceAddress = some err →
                    main cfg w =
                      ⟨[.send (stsTLS cfg cert (w.certsFromPEM ca)) (postRequest cfg),
                        .print (resp.Status ++ str "\n"),
                        .print (str "STS Token: " ++ result.AccessToken ++ str "\n"),
                        .print (str "Can not get Resource\n")], 0⟩)
                  ∧ (w.urlParse cfg.resourceAddress = none →
                    (∀ err, w.roundTrip (resourceTLS cfg cert (w.certsFromPEM ca))
                        (bearerRequest cfg result.AccessToken) = .error err →
                      main cfg w =
                        ⟨[.send (stsTLS cfg cert (w.certsFromPEM ca)) (postRequest cfg),
                          .print (resp.Status ++ str "\n"),
                          .print (str "STS Token: " ++ result.AccessToken ++ str "\n"),
                          .send (resourceTLS cfg cert (w.certsFromPEM ca))
                            (bearerRequest cfg result.AccessToken),
                          .print (str "Error on response.\n[ERROR] " ++ err ++ str "\n")], 0⟩)
                    ∧ (∀ rresp, w.roundTrip (resourceTLS cfg cert (w.certsFromPEM ca))
                        (bearerRequest cfg result.AccessToken) = .ok rresp →
                      (∀ rb err, rresp.Body = (rb, some err) →
                        main cfg w =
                          ⟨[.send (stsTLS cfg cert (w.certsFromPEM ca)) (postRequest cfg),
                            .print (resp.Status ++ str "\n"),
                            .print (str "STS Token: " ++ result.AccessToken ++ str "\n"),
                            .send (resourceTLS cfg cert (w.certsFromPEM ca))
                              (bearerRequest cfg result.AccessToken),
                            .print (str "Error while reading the response bytes: " ++ err
                              ++ str "\n")], 0⟩)
                      ∧ (∀ rb, rresp.Body = (rb, none) →
                        main cfg w =
                          ⟨[.send (stsTLS cfg cert (w.certsFromPEM ca)) (postRequest cfg),
                            .print (resp.Status ++ str "\n"),
                            .print (str "STS Token: " ++ result.AccessToken ++ str "\n"),
                            .send (resourceTLS cfg cert (w.certsFromPEM ca))
                              (bearerRequest cfg result.AccessToken),
                            .logPrintln rb], 0⟩))))))))) := by
  refine ⟨?_, ?_, ?_⟩
  · intro err h
    simp [main, h]
  · intro ca err h1 h2
    simp [main, h1, h2]
  · intro ca cert h1 h2
    rw [main_loaded cfg w ca cert h1 h2, tokenExchange_eq]
    refine ⟨fun err hu => by simp [hu], fun hu => ⟨fun err hr => by simp [hu, hr],
      fun resp hr => ⟨fun hs => by simp [hu, hr, hs], fun hs =>
        ⟨fun b err hb => by simp [hu, hr, hs, hb], fun b hb =>
          ⟨fun err hj => by simp [hu, hr, hs, hb, hj], fun result hj => ?_⟩⟩⟩⟩⟩
    simp only [hu, hr, hs, hb, hj, ne_eq, not_true_eq_false, if_false, authenticatedFetch_eq]
    refine ⟨fun err hu2 => by simp [hu2, Run.after], fun hu2 =>
      ⟨fun err hr2 => by simp [hu2, hr2, Run.after], fun rresp hr2 =>
        ⟨fun rb err hb2 => by simp [hu2, hr2, hb2, Run.after],
          fun rb hb2 => by simp [hu2, hr2, hb2, Run.after]⟩⟩⟩

/-- C8, amended, part (3), on a world whose STS answers 403: the run ends with
the report of the rejection, exit status 0. -/
theorem exit_status_by_failure_witness :
    main demoFlags (demoWorld goodCA deniedResp unauthorizedResp) =
      ⟨[.send (stsTLS demoFlags ⟨[str "alice"], str "alice-key"⟩ [str "CA"])
          (postRequest demoFlags),
        .print (str "Unable to exchange token " ++ str "denied" ++ str ",  " ++ fmtErr none)],
       0⟩ :=
  ((((exit_status_by_failure demoFlags (demoWorld goodCA deniedResp unauthorizedResp)).2.2
    goodCA ⟨[str "alice"], str "alice-key"⟩ rfl rfl).2 rfl).2 deniedResp rfl).1 (by decide)

/-- When the CA file cannot be read, or the key pair cannot be loaded, no request
is handed to any client: the run is the one `log.Fatalf`. -/
theorem unreadable_files_stop (cfg : Flags) (w : World) :
    (∀ err, w.readFile cfg.tlsCA = .error err → (main cfg w).sent = [])
      ∧ (∀ err, w.loadX509KeyPair cfg.tlsCert cfg.tlsKey = .error err →
          (main cfg w).sent = []) := by
  constructor
  · intro err h
    simp [main, h, Run.sent, Event.request]
  · intro err h
    unfold main
    cases hca : w.readFile cfg.tlsCA with
    | error e => simp [Run.sent, Event.request]
    | ok ca => simp [h, Run.sent, Event.request]

/-- C6, at the failing input: the CA file is readable but holds no certificate
("not a certificate"), the key pair loads.  `main` does not stop: the result
of `AppendCertsFromPEM` is not looked at, the STS client gets an empty root
pool, the POST is handed to it (a network call), the handshake fails, and
`main` reports a connection error and returns with exit status 0. -/
theorem invalid_ca_still_posts :
    (demoWorld (str "not a certificate") tokenResp unauthorizedResp).certsFromPEM
        (str "not a certificate") = []
      ∧ main demoFlags (demoWorld (str "not a certificate") tokenResp unauthorizedResp)
        = ⟨[.send { ServerName := str "sts.domain.com",
                    Certificates := [⟨[str "alice"], str "alice-key"⟩], RootCAs := [] }
              (postRequest demoFlags),
            .print (str "Error: could not connect x509: certificate signed by unknown authority")],
           0⟩ := by
    exact ⟨by decide, by decide⟩

/-! ## Claims about the two TLS channels -/

theorem Event.request_eq_some (e : Event) (p : TLSConfig × http.Request) :
    e.request = some p ↔ e = .send p.1 p.2 := by
  cases e <;> simp [Event.request, Prod.ext_iff, eq_comm]

theorem mem_gets (r : Run) (tls : TLSConfig) (req : http.Request) :
    (tls, req) ∈ r.gets ↔ Event.send tls req ∈ r.events ∧ req.Method = str "GET" := by
  simp [Run.gets, Run.sent, List.mem_filterMap, Event.request_eq_some]

/-- Every request of the exchange is the POST on the STS configuration or the
bearer GET on the resource configuration. -/
theorem tokenExchange_send_cases (cfg : Flags) (w : World) (cert : TLSCertificate)
    (pool : CertPool) (tls : TLSConfig) (req : http.Request)
    (h : Event.send tls req ∈ (tokenExchange cfg w cert pool).events) :
    (req.Method = str "POST" ∧ tls = stsTLS cfg cert pool)
      ∨ (req.Method = str "GET" ∧ tls = resourceTLS cfg cert pool) := by
  have hp : Event.send tls req = .send (stsTLS cfg cert pool) (postRequest cfg) →
      req.Method = str "POST" ∧ tls = stsTLS cfg cert pool := by
    intro e
    cases e
    exact ⟨rfl, rfl⟩
  rw [tokenExchange_eq] at h
  cases hu : w.urlParse cfg.stsAddress with
  | some e => simp [hu] at h
  | none =>
    simp only [hu] at h
    cases hr : w.roundTrip (stsTLS cfg cert pool) (postRequest cfg) with
    | error e =>
      simp only [hr, List.mem_cons, reduceCtorEq, List.not_mem_nil, or_false] at h
      exact Or.inl (hp h)
    | ok resp =>
      simp only [hr] at h
      by_cases hs : resp.StatusCode = 200
      · rcases hb : resp.Body with ⟨b, _ | e⟩
        · cases hj : w.jsonUnmarshal b with
          | error e =>
            simp only [hs, hb, hj, ne_eq, not_true_eq_false, if_false, List.mem_cons,
              reduceCtorEq, List.not_mem_nil, or_false] at h
            exact Or.inl (hp h)
          | ok result =>
            simp only [hs, hb, hj, ne_eq, not_true_eq_false, if_false, Run.after,
              List.mem_append, List.mem_cons, reduceCtorEq,
              List.not_mem_nil, or_false, false_or] at h
            rcases h with h | h
            · exact Or.inl (hp h)
            · obtain ⟨-, h1, h2⟩ := authenticatedFetch_send cfg w cert pool result tls req h
              subst h1 h2
              exact Or.inr ⟨rfl, rfl⟩
        · simp only [hs, hb, ne_eq, not_true_eq_false, if_false, List.mem_cons,
            reduceCtorEq, List.not_mem_nil, or_false] at h
          exact Or.inl (hp h)
      · simp only [hs, ne_eq, not_false_eq_true, if_true, List.mem_cons,
          reduceCtorEq, List.not_mem_nil, or_false] at h
        exact Or.inl (hp h)

/-- Every request of a run is the POST on the STS configuration or a GET on the
resource configuration, both built from the loaded key pair and pool. -/
theorem main_send_cases (cfg : Flags) (w : World) (tls : TLSConfig) (req : http.Request)
    (h : Event.send tls req ∈ (main cfg w).events) :
    ∃ ca cert, w.readFile cfg.tlsCA = .ok ca
      ∧ w.loadX509KeyPair cfg.tlsCert cfg.tlsKey = .ok cert
      ∧ ((req.Method = str "POST" ∧ tls = stsTLS cfg cert (w.certsFromPEM ca))
        ∨ (req.Method = str "GET" ∧ tls = resourceTLS cfg cert (w.certsFromPEM ca))) := by
  obtain ⟨ca, cert, hca, hcert⟩ := main_send_loaded cfg w tls req h
  rw [main_loaded cfg w ca cert hca hcert] at h
  exact ⟨ca, cert, hca, hcert, tokenExchange_send_cases cfg w cert _ tls req h⟩

/-- The POST requests of the exchange: the token-exchange request on the STS
configuration when `http.NewRequest` accepts `stsaddress`, none otherwise. -/
theorem tokenExchange_posts (cfg : Flags) (w : World) (cert : TLSCertificate)
    (pool : CertPool) :
    (tokenExchange cfg w cert pool).posts =
      if w.urlParse cfg.stsAddress = none then [(stsTLS cfg cert pool, postRequest cfg)]
      else [] := by
  rw [tokenExchange_eq]
  cases hu : w.urlParse cfg.stsAddress with
  | some e => simp [Run.posts, Run.sent, Event.request]
  | none =>
    simp only [if_true]
    cases hr : w.roundTrip (stsTLS cfg cert pool) (postRequest cfg) with
    | error e => simp [Run.posts, Run.sent, Event.request, postRequest_Method]
    | ok resp =>
      simp only []
      by_cases hs : resp.StatusCode = 200
      · rcases hb : resp.Body with ⟨b, _ | e⟩
        · cases hj : w.jsonUnmarshal b with
          | error e => simp [hs, hb, hj, Run.posts, Run.sent, Event.request, postRequest_Method]
          | ok result =>
            have h := authenticatedFetch_sent cfg w cert pool result
            simp only [Run.sent] at h
            simp only [hs, hb, hj, ne_eq, not_true_eq_false, if_false, Run.posts, Run.sent, Run.after,
              List.filterMap_append, h]
            by_cases hu2 : w.urlParse cfg.resourceAddress = none
            · simp [hu2, Event.request, postRequest_Method, bearerRequest_Method, GET_ne_POST]
            · simp [hu2, Event.request, postRequest_Method]
        · simp [hs, hb, Run.posts, Run.sent, Event.request, postRequest_Method]
      · simp [hs, Run.posts, Run.sent, Event.request, postRequest_Method]

/-- The POST requests of a run depend on the flags only through `tlsCA`,
`tlsCert`, `tlsKey`, `stsSNI`, `stsaddress` and the three form values. -/
theorem main_posts (cfg : Flags) (w : World) :
    (main cfg w).posts =
      match w.readFile cfg.tlsCA with
      | .error _ => []
      | .ok ca =>
        match w.loadX509KeyPair cfg.tlsCert cfg.tlsKey with
        | .error _ => []
        | .ok cert =>
          if w.urlParse cfg.stsAddress = none then
            [(stsTLS cfg cert (w.certsFromPEM ca), postRequest cfg)]
          else [] := by
  unfold main
  cases hca : w.readFile cfg.tlsCA with
  | error e => simp [Run.posts, Run.sent, Event.request]
  | ok ca =>
    cases hcert : w.loadX509KeyPair cfg.tlsCert cfg.tlsKey with
    | error e => simp [Run.posts, Run.sent, Event.request]
    | ok cert => simp only [tokenExchange_posts]

/-- C7. (1) In every run, every POST is handed to a client whose TLS
configuration has `ServerName = stsSNI`, and every GET to a client whose TLS
configuration has `ServerName = resourceSNI`; both configurations carry the
same single client certificate (the loaded key pair) and the same root pool
(the certificates of the CA file).  (2) The POSTs of a run, with their TLS
configuration, are unchanged when only `resourceSNI` and `resourceAddress`
vary.  (3) The TLS configuration of a GET is unchanged when only `stsSNI` and
`stsaddress` vary.  (4) With the values of `stsSNI` and `resourceSNI` swapped,
the POST is verified against the former `resourceSNI` and the GET against the
former `stsSNI`. -/
theorem channels_use_own_server_name (cfg : Flags) (w : World) :
    (∀ tls req, Event.send tls req ∈ (main cfg w).events →
      ∃ ca cert, w.readFile cfg.tlsCA = .ok ca
        ∧ w.loadX509KeyPair cfg.tlsCert cfg.tlsKey = .ok cert
        ∧ ((req.Method = str "POST"
              ∧ tls = { ServerName := cfg.stsSNI, Certificates := [cert],
                        RootCAs := w.certsFromPEM ca })
          ∨ (req.Method = str "GET"
              ∧ tls = { ServerName := cfg.resourceSNI, Certificates := [cert],
                        RootCAs := w.certsFromPEM ca })))
    ∧ (∀ sni addr,
        (main { cfg with resourceSNI := sni, resourceAddress := addr } w).posts
          = (main cfg w).posts)
    ∧ (∀ sni addr tls req tls1 req1,
        (tls, req) ∈ (main { cfg with stsSNI := sni, stsAddress := addr } w).gets →
        (tls1, req1) ∈ (main cfg w).gets → tls = tls1)
    ∧ (∀ tls req,
        Event.send tls req
          ∈ (main { cfg with stsSNI := cfg.resourceSNI, resourceSNI := cfg.stsSNI } w).events →
        (req.Method = str "POST" → tls.ServerName = cfg.resourceSNI)
          ∧ (req.Method = str "GET" → tls.ServerName = cfg.stsSNI)) := by
  refine ⟨?_, ?_, ?_, ?_⟩
  · intro tls req h
    exact main_send_cases cfg w tls req h
  · intro sni addr
    rw [main_posts, main_posts]
    rfl
  · intro sni addr tls req tls1 req1 h h1
    rw [mem_gets] at h h1
    obtain ⟨ca, cert, hca, hcert, hc⟩ := main_send_cases _ w tls req h.1
    obtain ⟨ca1, cert1, hca1, hcert1, hc1⟩ := main_send_cases cfg w tls1 req1 h1.1
    have e1 : ca = ca1 := Except.ok.inj (hca.symm.trans hca1)
    have e2 : cert = cert1 := Except.ok.inj (hcert.symm.trans hcert1)
    subst e1 e2
    rcases hc with ⟨hm, -⟩ | ⟨-, ht⟩
    · rw [h.2] at hm
      exact absurd hm GET_ne_POST
    · rcases hc1 with ⟨hm1, -⟩ | ⟨-, ht1⟩
      · rw [h1.2] at hm1
        exact absurd hm1 GET_ne_POST
      · rw [ht, ht1]
        rfl
  · intro tls req h
    obtain ⟨ca, cert, -, -, hc⟩ := main_send_cases _ w tls req h
    rcases hc with ⟨hm, ht⟩ | ⟨hm, ht⟩
    · refine ⟨fun _ => by rw [ht]; rfl, fun hg => ?_⟩
      rw [hm] at hg
      exact absurd hg.symm GET_ne_POST
    · refine ⟨fun hp => ?_, fun _ => by rw [ht]; rfl⟩
      rw [hm] at hp
      exact absurd hp GET_ne_POST

/-- C7, part (1), on the end-to-end scenario: the GET goes out on the resource
configuration. -/
theorem channels_use_own_server_name_witness :
    ∃ ca cert, (demoWorld goodCA tokenResp unauthorizedResp).readFile demoFlags.tlsCA = .ok ca
      ∧ (demoWorld goodCA tokenResp unauthorizedResp).loadX509KeyPair
          demoFlags.tlsCert demoFlags.tlsKey = .ok cert
      ∧ (((bearerRequest demoFlags (str "TKN123")).Method = str "POST"
            ∧ resourceTLS demoFlags ⟨[str "alice"], str "alice-key"⟩ [str "CA"]
              = { ServerName := demoFlags.stsSNI, Certificates := [cert],
                  RootCAs := (demoWorld goodCA tokenResp unauthorizedResp).certsFromPEM ca })
        ∨ ((bearerRequest demoFlags (str "TKN123")).Method = str "GET"
            ∧ resourceTLS demoFlags ⟨[str "alice"], str "alice-key"⟩ [str "CA"]
              = { ServerName := demoFlags.resourceSNI, Certificates := [cert],
                  RootCAs := (demoWorld goodCA tokenResp unauthorizedResp).certsFromPEM ca })) :=
  (channels_use_own_server_name demoFlags (demoWorld goodCA tokenResp unauthorizedResp)).1
    (resourceTLS demoFlags ⟨[str "alice"], str "alice-key"⟩ [str "CA"])
    (bearerRequest demoFlags (str "TKN123")) (by decide)

/-! ## `net/url`: escaping and unescaping are inverse -/

namespace url

/-- The two hex digits written for a byte decode to that byte. -/
theorem unhex_upperhex (c : Byte) :
    (unhex (upperhex (c.val / 16)) <<< 4 ||| unhex (upperhex (c.val % 16))) = c := by
  revert c
  decide

theorem ishex_upperhex (c : Byte) :
    ishex (upperhex (c.val / 16)) = true ∧ ishex (upperhex (c.val % 16)) = true := by
  revert c
  decide

/-- The bytes that `escape` copies are not `%`, `+`, `&`, `=`, `;` or space. -/
theorem not_shouldEscape (c : Byte) (h : shouldEscape c = false) :
    c ≠ 37 ∧ c ≠ 43 ∧ c ≠ 38 ∧ c ≠ 61 ∧ c ≠ 59 ∧ c ≠ 32 := by
  revert c
  decide

/-- Hex digits are not `&`, `=` or `;`. -/
theorem upperhex_clean (c : Byte) :
    (upperhex (c.val / 16) ≠ 38 ∧ upperhex (c.val / 16) ≠ 61 ∧ upperhex (c.val / 16) ≠ 59)
      ∧ (upperhex (c.val % 16) ≠ 38 ∧ upperhex (c.val % 16) ≠ 61
        ∧ upperhex (c.val % 16) ≠ 59) := by
  revert c
  decide

/-- No byte written by `escape` is `&`, `=` or `;`. -/
theorem escapeByte_clean (c : Byte) : ∀ x ∈ escapeByte c, x ≠ 38 ∧ x ≠ 61 ∧ x ≠ 59 := by
  intro x hx
  unfold escapeByte at hx
  by_cases h32 : c = 32
  · rw [if_pos h32] at hx
    rw [List.mem_singleton.mp hx]
    decide
  · rw [if_neg h32] at hx
    cases hs : shouldEscape c
    · simp only [hs, Bool.false_eq_true, if_false, List.mem_singleton] at hx
      rw [hx]
      obtain ⟨-, -, h1, h2, h3, -⟩ := not_shouldEscape c hs
      exact ⟨h1, h2, h3⟩
    · simp only [hs, if_true, List.mem_cons, List.mem_singleton, List.not_mem_nil,
        or_false] at hx
      rcases hx with rfl | rfl | rfl
      · decide
      · exact (upperhex_clean c).1
      · exact (upperhex_clean c).2

theorem escapeByte_space : escapeByte 32 = [43] := rfl

theorem escapeByte_plain (c : Byte) (hs : shouldEscape c = false) : escapeByte c = [c] := by
  have h32 := (not_shouldEscape c hs).2.2.2.2.2
  simp [escapeByte, h32, hs]

theorem escapeByte_hex (c : Byte) (h32 : c ≠ 32) (hs : shouldEscape c = true) :
    escapeByte c = [37, upperhex (c.val / 16), upperhex (c.val % 16)] := by
  simp [escapeByte, h32, hs]

/-- The fast paths of `escape` agree with its byte-by-byte loop. -/
theorem QueryEscape_eq (s : GoString) : QueryEscape s = (s.map escapeByte).flatten := by
  unfold QueryEscape
  simp only
  split
  · rename_i h
    have hall : ∀ c ∈ s, shouldEscape c = false := by
      intro c hc
      by_contra hne
      have hne : shouldEscape c = true := by simpa using hne
      by_cases h32 : c = 32
      · have : c ∈ s.filter (fun c => shouldEscape c && c == 32) :=
          List.mem_filter.mpr ⟨hc, by rw [hne]; simp [h32]⟩
        rw [List.length_eq_zero.mp h.1] at this
        simp at this
      · have : c ∈ s.filter (fun c => shouldEscape c && c != 32) :=
          List.mem_filter.mpr ⟨hc, by simp [hne, h32]⟩
        rw [List.length_eq_zero.mp h.2] at this
        simp at this
    clear h
    induction s with
    | nil => rfl
    | cons c rest ih =>
      have hc := hall c (List.mem_cons_self _ _)
      simp only [List.map_cons, List.flatten_cons, escapeByte_plain c hc]
      rw [← ih (fun x hx => hall x (List.mem_cons_of_mem _ hx))]
      rfl
  · split
    · rename_i h0 h
      have hall : ∀ c ∈ s, shouldEscape c = true → c = 32 := by
        intro c hc hne
        by_contra h32
        have : c ∈ s.filter (fun c => shouldEscape c && c != 32) :=
          List.mem_filter.mpr ⟨hc, by simp [hne, h32]⟩
        rw [List.length_eq_zero.mp h] at this
        simp at this
      clear h h0
      induction s with
      | nil => rfl
      | cons c rest ih =>
        have hc := hall c (List.mem_cons_self _ _)
        simp only [List.map_cons, List.flatten_cons]
        rw [ih (fun x hx => hall x (List.mem_cons_of_mem _ hx))]
        by_cases h32 : c = 32
        · subst h32
          rfl
        · have : shouldEscape c = false := by
            cases hs : shouldEscape c
            · rfl
            · exact absurd (hc hs) h32
          simp [escapeByte_plain c this, h32]
    · rfl

/-- No byte of an escaped string is `&`, `=` or `;`. -/
theorem QueryEscape_clean (s : GoString) : ∀ x ∈ QueryEscape s, x ≠ 38 ∧ x ≠ 61 ∧ x ≠ 59 := by
  rw [QueryEscape_eq]
  intro x hx
  simp only [List.mem_flatten, List.mem_map] at hx
  obtain ⟨l, ⟨c, -, rfl⟩, hxl⟩ := hx
  exact escapeByte_clean c x hxl

theorem checkEscapes_plus (rest : GoString) :
    checkEscapes (43 :: rest) =
      match checkEscapes rest with
      | .ok (n, _) => .ok (n, true)
      | .error e => .error e := by
  conv_lhs => rw [checkEscapes.eq_def]
  simp

theorem checkEscapes_plain (c : Byte) (rest : GoString) (h37 : c ≠ 37) (h43 : c ≠ 43) :
    checkEscapes (c :: rest) = checkEscapes rest := by
  conv_lhs => rw [checkEscapes.eq_def]
  simp [h37, h43]

theorem checkEscapes_hex (h1 h2 : Byte) (rest : GoString)
    (hh : ishex h1 = true ∧ ishex h2 = true) :
    checkEscapes (37 :: h1 :: h2 :: rest) =
      match checkEscapes rest with
      | .ok (n, hasPlus) => .ok (n + 1, hasPlus)
      | .error e => .error e := by
  conv_lhs => rw [checkEscapes.eq_def]
  simp [hh.1, hh.2]

theorem decodeEscapes_plus (rest : GoString) :
    decodeEscapes (43 :: rest) = 32 :: decodeEscapes rest := by
  conv_lhs => rw [decodeEscapes.eq_def]
  simp

theorem decodeEscapes_copy (c : Byte) (rest : GoString) (h37 : c ≠ 37) (h43 : c ≠ 43) :
    decodeEscapes (c :: rest) = c :: decodeEscapes rest := by
  conv_lhs => rw [decodeEscapes.eq_def]
  simp [h37, h43]

theorem decodeEscapes_hex (h1 h2 : Byte) (rest : GoString) :
    decodeEscapes (37 :: h1 :: h2 :: rest) =
      (unhex h1 <<< 4 ||| unhex h2) :: decodeEscapes rest := by
  conv_lhs => rw [decodeEscapes.eq_def]
  simp

/-- The first loop of `unescape` accepts every escaped string. -/
theorem checkEscapes_escaped (s : GoString) :
    ∃ n p, checkEscapes (s.map escapeByte).flatten = .ok (n, p) := by
  induction s with
  | nil => exact ⟨0, false, rfl⟩
  | cons c rest ih =>
    obtain ⟨n, p, ih⟩ := ih
    simp only [List.map_cons, List.flatten_cons]
    by_cases h32 : c = 32
    · refine ⟨n, true, ?_⟩
      subst h32
      rw [escapeByte_space]
      simp only [List.singleton_append, checkEscapes_plus, ih]
    · cases hs : shouldEscape c
      · obtain ⟨h37, h43, -⟩ := not_shouldEscape c hs
        refine ⟨n, p, ?_⟩
        rw [escapeByte_plain c hs]
        simp only [List.singleton_append, checkEscapes_plain c _ h37 h43, ih]
      · refine ⟨n + 1, p, ?_⟩
        rw [escapeByte_hex c h32 hs]
        simp only [List.cons_append, List.nil_append, checkEscapes_hex _ _ _ (ishex_upperhex c), ih]

/-- The second loop of `unescape` restores the string that was escaped. -/
theorem decodeEscapes_escaped (s : GoString) :
    decodeEscapes (s.map escapeByte).flatten = s := by
  induction s with
  | nil => rfl
  | cons c rest ih =>
    simp only [List.map_cons, List.flatten_cons]
    by_cases h32 : c = 32
    · subst h32
      rw [escapeByte_space]
      simp only [List.singleton_append, decodeEscapes_plus, ih]
    · cases hs : shouldEscape c
      · obtain ⟨h37, h43, -⟩ := not_shouldEscape c hs
        rw [escapeByte_plain c hs]
        simp only [List.singleton_append, decodeEscapes_copy c _ h37 h43, ih]
      · rw [escapeByte_hex c h32 hs]
        simp only [List.cons_append, List.nil_append, decodeEscapes_hex, unhex_upperhex c, ih]

/-- With no `%` and no `+`, the second loop of `unescape` copies its input: the
fast path `return s, nil` agrees with it. -/
theorem decodeEscapes_plain (t : GoString) (h : checkEscapes t = .ok (0, false)) :
    decodeEscapes t = t := by
  induction t with
  | nil => rfl
  | cons c rest ih =>
    by_cases h37 : c = 37
    · subst h37
      exfalso
      rw [checkEscapes.eq_def] at h
      simp only [if_true] at h
      split at h
      · split at h
        · split at h <;> simp at h
        · simp at h
      · simp at h
    · by_cases h43 : c = 43
      · subst h43
        exfalso
        rw [checkEscapes_plus] at h
        split at h <;> simp at h
      · rw [checkEscapes_plain c _ h37 h43] at h
        rw [decodeEscapes_copy c _ h37 h43, ih h]

/-- Round trip of one string: `QueryUnescape(QueryEscape(s)) = s`, without error. -/
theorem QueryUnescape_QueryEscape (s : GoString) : QueryUnescape (QueryEscape s) = .ok s := by
  rw [QueryEscape_eq]
  obtain ⟨n, p, h⟩ := checkEscapes_escaped s
  unfold QueryUnescape
  rw [h]
  simp only
  split
  · rename_i h0
    have : checkEscapes (s.map escapeByte).flatten = .ok (0, false) := by
      rw [h, h0.1, h0.2]
    have hd := decodeEscapes_plain _ this
    rw [decodeEscapes_escaped] at hd
    rw [← hd]
  · rw [decodeEscapes_escaped]

/-! ## `net/url`: parsing an encoded form -/

theorem cut_append (sep : Byte) (x rest : GoString) (h : sep ∉ x) :
    cut sep (x ++ sep :: rest) = (x, rest, true) := by
  induction x with
  | nil => simp [cut]
  | cons c xs ih =>
    have hc : c ≠ sep := fun e => h (e ▸ List.mem_cons_self _ _)
    have hxs : sep ∉ xs := fun e => h (List.mem_cons_of_mem _ e)
    simp [cut, hc, ih hxs]

theorem cut_absent (sep : Byte) (x : GoString) (h : sep ∉ x) : cut sep x = (x, [], false) := by
  induction x with
  | nil => simp [cut]
  | cons c xs ih =>
    have hc : c ≠ sep := fun e => h (e ▸ List.mem_cons_self _ _)
    have hxs : sep ∉ xs := fun e => h (List.mem_cons_of_mem _ e)
    simp [cut, hc, ih hxs]

/-- The remainder that `strings.Cut` returns is shorter than a non-empty input. -/
theorem cut_length (sep c : Byte) (s : GoString) : (cut sep (c :: s)).2.1.length ≤ s.length := by
  induction s generalizing c with
  | nil => by_cases h : c = sep <;> simp [cut, h]
  | cons d s ih =>
    by_cases h : c = sep
    · simp [cut, h]
    · have := ih d
      simp only [cut, h, if_false, List.length_cons] at this ⊢
      omega

/-- The loop of `parseQuery` ends within `len(query)` iterations. -/
theorem parseQueryLoop_total (fuel : Nat) (m : Values) (q : GoString) (err : Option ParseError)
    (h : q.length ≤ fuel) : ∃ r, parseQueryLoop fuel m q err = some r := by
  induction fuel generalizing m q err with
  | zero =>
    have : q = [] := List.length_eq_zero.mp (Nat.le_zero.mp h)
    subst this
    exact ⟨(m, err), by simp [parseQueryLoop]⟩
  | succ fuel ih =>
    cases q with
    | nil => exact ⟨(m, err), by simp [parseQueryLoop]⟩
    | cons c qs =>
      have hlen : (cut 38 (c :: qs)).2.1.length ≤ fuel :=
        le_trans (cut_length 38 c qs) (by simpa using h)
      simp only [parseQueryLoop]
      split
      · exact ih _ _ _ hlen
      · split
        · exact ih _ _ _ hlen
        · split
          · exact ih _ _ _ hlen
          · split
            · exact ih _ _ _ hlen
            · exact ih _ _ _ hlen

/-- The function `ParseQuery` always returns. -/
theorem ParseQuery_total (q : GoString) : ∃ r, ParseQuery q = some r :=
  parseQueryLoop_total q.length [] q none (le_refl _)

/-- One iteration of `parseQuery` on `key=value&rest`, where key and value are
free of `&` and `;` and the key is free of `=`. -/
theorem parseQueryLoop_pair (fuel : Nat) (m : Values) (k v rest : GoString)
    (err : Option ParseError) (k0 v0 : GoString)
    (hk : k ≠ []) (hk38 : (38 : Byte) ∉ k) (hk61 : (61 : Byte) ∉ k) (hk59 : (59 : Byte) ∉ k)
    (hv38 : (38 : Byte) ∉ v) (hv59 : (59 : Byte) ∉ v)
    (huk : QueryUnescape k = .ok k0) (huv : QueryUnescape v = .ok v0) :
    parseQueryLoop (fuel + 1) m (k ++ 61 :: (v ++ 38 :: rest)) err
      = parseQueryLoop fuel (m.append k0 v0) rest err := by
  have hkey38 : (38 : Byte) ∉ k ++ 61 :: v := by
    simp only [List.mem_append, List.mem_cons, not_or]
    exact ⟨hk38, by decide, hv38⟩
  have hkey59 : (59 : Byte) ∉ k ++ 61 :: v := by
    simp only [List.mem_append, List.mem_cons, not_or]
    exact ⟨hk59, by decide, hv59⟩
  have hne : k ++ 61 :: v ≠ [] := by simp
  have hcut : cut 38 (k ++ 61 :: (v ++ 38 :: rest)) = (k ++ 61 :: v, rest, true) := by
    have := cut_append 38 (k ++ 61 :: v) rest hkey38
    simpa [List.append_assoc] using this
  have hcut2 : cut 61 (k ++ 61 :: v) = (k, v, true) := cut_append 61 k v hk61
  cases k with
  | nil => exact absurd rfl hk
  | cons c ks =>
    simp only [List.cons_append] at hcut hcut2 hkey59 hne ⊢
    simp only [parseQueryLoop, hcut, hkey59, hne, hcut2, huk, huv, if_false]

/-- The last iteration of `parseQuery`, on `key=value`. -/
theorem parseQueryLoop_last (fuel : Nat) (m : Values) (k v : GoString)
    (err : Option ParseError) (k0 v0 : GoString)
    (hk : k ≠ []) (hk38 : (38 : Byte) ∉ k) (hk61 : (61 : Byte) ∉ k) (hk59 : (59 : Byte) ∉ k)
    (hv38 : (38 : Byte) ∉ v) (hv59 : (59 : Byte) ∉ v)
    (huk : QueryUnescape k = .ok k0) (huv : QueryUnescape v = .ok v0) :
    parseQueryLoop (fuel + 1) m (k ++ 61 :: v) err = some (m.append k0 v0, err) := by
  have hkey38 : (38 : Byte) ∉ k ++ 61 :: v := by
    simp only [List.mem_append, List.mem_cons, not_or]
    exact ⟨hk38, by decide, hv38⟩
  have hkey59 : (59 : Byte) ∉ k ++ 61 :: v := by
    simp only [List.mem_append, List.mem_cons, not_or]
    exact ⟨hk59, by decide, hv59⟩
  have hne : k ++ 61 :: v ≠ [] := by simp
  have hcut : cut 38 (k ++ 61 :: v) = (k ++ 61 :: v, [], false) := cut_absent 38 _ hkey38
  have hcut2 : cut 61 (k ++ 61 :: v) = (k, v, true) := cut_append 61 k v hk61
  cases k with
  | nil => exact absurd rfl hk
  | cons c ks =>
    simp only [List.cons_append] at hcut hcut2 hkey59 hne ⊢
    simp only [parseQueryLoop, hcut, hkey59, hne, hcut2, huk, huv, if_false]

end url

/-! ## Claims about the token-exchange form -/

/-- The form built by lines 69-76, entry by entry. -/
theorem tokenExchangeForm_eq (cfg : Flags) :
    tokenExchangeForm cfg =
      [(str "grant_type", [str "urn:ietf:params:oauth:grant-type:token-exchange"]),
       (str "resource", [cfg.stsAudience]),
       (str "audience", [cfg.stsAudience]),
       (str "subject_token_type", [str "urn:ietf:params:oauth:token-type:access_token"]),
       (str "requested_token_type", [str "urn:ietf:params:oauth:token-type:jwt"]),
       (str "scope", [cfg.stsScope]),
       (str "subject_token", [cfg.stsCred])] := rfl

/-- The POST of a run carries the encoded token-exchange form as
`application/x-www-form-urlencoded` body. -/
theorem main_post_body (cfg : Flags) (w : World) (tls : TLSConfig) (req : http.Request)
    (h : Event.send tls req ∈ (main cfg w).events) (hm : req.Method = str "POST") :
    req = postRequest cfg := by
  obtain ⟨ca, cert, hca, hcert⟩ := main_send_loaded cfg w tls req h
  rw [main_loaded cfg w ca cert hca hcert] at h
  exact (tokenExchange_send_post cfg w cert _ tls req h hm).2.2

/-- C4. For every configuration the form posted to the STS has exactly seven
keys, each with exactly one value: `grant_type` is the token-exchange URN,
`resource` and `audience` are both `stsaudience`, `subject_token_type` is the
access-token URN, `requested_token_type` is the JWT URN, `scope` is `scope`
and `subject_token` is `stsCred`; every other key has no value.  Every POST of
a run has the encoding of this form as body, with content type
`application/x-www-form-urlencoded`. -/
theorem form_has_seven_fields (cfg : Flags) (w : World) :
    (tokenExchangeForm cfg).keys.length = 7 ∧ (tokenExchangeForm cfg).keys.Nodup
      ∧ (tokenExchangeForm cfg).lookupAll (str "grant_type")
          = [str "urn:ietf:params:oauth:grant-type:token-exchange"]
      ∧ (tokenExchangeForm cfg).lookupAll (str "resource") = [cfg.stsAudience]
      ∧ (tokenExchangeForm cfg).lookupAll (str "audience") = [cfg.stsAudience]
      ∧ (tokenExchangeForm cfg).lookupAll (str "subject_token_type")
          = [str "urn:ietf:params:oauth:token-type:access_token"]
      ∧ (tokenExchangeForm cfg).lookupAll (str "requested_token_type")
          = [str "urn:ietf:params:oauth:token-type:jwt"]
      ∧ (tokenExchangeForm cfg).lookupAll (str "scope") = [cfg.stsScope]
      ∧ (tokenExchangeForm cfg).lookupAll (str "subject_token") = [cfg.stsCred]
      ∧ (∀ k, k ∉ (tokenExchangeForm cfg).keys → (tokenExchangeForm cfg).lookupAll k = [])
      ∧ (∀ tls req, Event.send tls req ∈ (main cfg w).events → req.Method = str "POST" →
          req.Body = some (tokenExchangeForm cfg).Encode
            ∧ req.Header = [(str "Content-Type", [str "application/x-www-form-urlencoded"])]) := by
  have hkeys : (tokenExchangeForm cfg).keys =
      [str "grant_type", str "resource", str "audience", str "subject_token_type",
       str "requested_token_type", str "scope", str "subject_token"] := rfl
  refine ⟨rfl, by rw [hkeys]; decide, rfl, rfl, rfl, rfl, rfl, rfl, rfl, ?_, ?_⟩
  · intro k hk
    have : List.lookup k (tokenExchangeForm cfg) = none := by
      rw [List.lookup_eq_none_iff]
      intro p hp
      rw [bne_iff_ne]
      intro he
      exact hk (by simpa [url.Values.keys] using ⟨p.2, by rw [he]; exact hp⟩)
    simp [url.Values.lookupAll, this]
  · intro tls req h hm
    rw [main_post_body cfg w tls req h hm]
    exact ⟨rfl, rfl⟩

theorem encodePair_nil (k v : GoString) :
    url.encodePair k [] v = k ++ 61 :: url.QueryEscape v := by
  simp [url.encodePair]

theorem encodePair_append (k v b x : GoString) :
    url.encodePair k (b ++ 61 :: x) v = b ++ 61 :: (x ++ 38 :: (k ++ 61 :: url.QueryEscape v)) := by
  simp [url.encodePair]

/-- The body that `PostForm` sends: the seven pairs in the order of their keys. -/
theorem tokenExchangeForm_Encode (cfg : Flags) :
    (tokenExchangeForm cfg).Encode =
      str "audience" ++ 61 :: (url.QueryEscape cfg.stsAudience ++ 38 ::
      (str "grant_type" ++ 61 ::
        (url.QueryEscape (str "urn:ietf:params:oauth:grant-type:token-exchange") ++ 38 ::
      (str "requested_token_type" ++ 61 ::
        (url.QueryEscape (str "urn:ietf:params:oauth:token-type:jwt") ++ 38 ::
      (str "resource" ++ 61 :: (url.QueryEscape cfg.stsAudience ++ 38 ::
      (str "scope" ++ 61 :: (url.QueryEscape cfg.stsScope ++ 38 ::
      (str "subject_token" ++ 61 :: (url.QueryEscape cfg.stsCred ++ 38 ::
      (str "subject_token_type" ++ 61 ::
        url.QueryEscape (str "urn:ietf:params:oauth:token-type:access_token"))))))))))))) := by
  have hsort : url.sortKeys (tokenExchangeForm cfg).keys =
      [str "audience", str "grant_type", str "requested_token_type", str "resource",
       str "scope", str "subject_token", str "subject_token_type"] := by
    have hkeys : (tokenExchangeForm cfg).keys =
        [str "grant_type", str "resource", str "audience", str "subject_token_type",
         str "requested_token_type", str "scope", str "subject_token"] := rfl
    rw [hkeys]
    decide
  have h1 : (tokenExchangeForm cfg).lookupAll (str "audience") = [cfg.stsAudience] := rfl
  have h2 : (tokenExchangeForm cfg).lookupAll (str "grant_type")
      = [str "urn:ietf:params:oauth:grant-type:token-exchange"] := rfl
  have h3 : (tokenExchangeForm cfg).lookupAll (str "requested_token_type")
      = [str "urn:ietf:params:oauth:token-type:jwt"] := rfl
  have h4 : (tokenExchangeForm cfg).lookupAll (str "resource") = [cfg.stsAudience] := rfl
  have h5 : (tokenExchangeForm cfg).lookupAll (str "scope") = [cfg.stsScope] := rfl
  have h6 : (tokenExchangeForm cfg).lookupAll (str "subject_token") = [cfg.stsCred] := rfl
  have h7 : (tokenExchangeForm cfg).lookupAll (str "subject_token_type")
      = [str "urn:ietf:params:oauth:token-type:access_token"] := rfl
  have e1 : url.QueryEscape (str "audience") = str "audience" := by decide
  have e2 : url.QueryEscape (str "grant_type") = str "grant_type" := by decide
  have e3 : url.QueryEscape (str "requested_token_type") = str "requested_token_type" := by
    decide
  have e4 : url.QueryEscape (str "resource") = str "resource" := by decide
  have e5 : url.QueryEscape (str "scope") = str "scope" := by decide
  have e6 : url.QueryEscape (str "subject_token") = str "subject_token" := by decide
  have e7 : url.QueryEscape (str "subject_token_type") = str "subject_token_type" := by decide
  have hlen : (tokenExchangeForm cfg).length ≠ 0 := by
    rw [tokenExchangeForm_eq]
    simp
  unfold url.Values.Encode
  rw [if_neg hlen, hsort]
  simp only [List.foldl_cons, List.foldl_nil]
  rw [h1, h2, h3, h4, h5, h6, h7, e1, e2, e3, e4, e5, e6, e7]
  simp only [List.foldl_cons, List.foldl_nil]
  simp only [encodePair_nil, encodePair_append, List.append_assoc, List.cons_append]


/-- A string of unreserved bytes is its own escaped form. -/
theorem QueryEscape_plain (k : GoString) (hk : ∀ x ∈ k, url.shouldEscape x = false) :
    url.QueryEscape k = k := by
  rw [url.QueryEscape_eq]
  induction k with
  | nil => rfl
  | cons c rest ih =>
    simp only [List.map_cons, List.flatten_cons,
      url.escapeByte_plain c (hk c (List.mem_cons_self _ _))]
    rw [ih (fun x hx => hk x (List.mem_cons_of_mem _ hx))]
    rfl

/-- One iteration of `parseQuery` on an encoded pair followed by `&`: the pair
is added to the map with the value that was encoded. -/
theorem parseQueryLoop_field (fuel : Nat) (m : url.Values) (k v rest : GoString)
    (err : Option url.ParseError) (hne : k ≠ [])
    (hk : ∀ x ∈ k, url.shouldEscape x = false) :
    url.parseQueryLoop (fuel + 1) m (k ++ 61 :: (url.QueryEscape v ++ 38 :: rest)) err
      = url.parseQueryLoop fuel (m.append k v) rest err := by
  have huk : url.QueryUnescape k = .ok k := by
    have := url.QueryUnescape_QueryEscape k
    rwa [QueryEscape_plain k hk] at this
  exact url.parseQueryLoop_pair fuel m k (url.QueryEscape v) rest err k v hne
    (fun h => (url.not_shouldEscape _ (hk _ h)).2.2.1 rfl)
    (fun h => (url.not_shouldEscape _ (hk _ h)).2.2.2.1 rfl)
    (fun h => (url.not_shouldEscape _ (hk _ h)).2.2.2.2.1 rfl)
    (fun h => (url.QueryEscape_clean v _ h).1 rfl)
    (fun h => (url.QueryEscape_clean v _ h).2.2 rfl)
    huk (url.QueryUnescape_QueryEscape v)

/-- The last iteration of `parseQuery` on an encoded pair. -/
theorem parseQueryLoop_field_last (fuel : Nat) (m : url.Values) (k v : GoString)
    (err : Option url.ParseError) (hne : k ≠ [])
    (hk : ∀ x ∈ k, url.shouldEscape x = false) :
    url.parseQueryLoop (fuel + 1) m (k ++ 61 :: url.QueryEscape v) err
      = some (m.append k v, err) := by
  have huk : url.QueryUnescape k = .ok k := by
    have := url.QueryUnescape_QueryEscape k
    rwa [QueryEscape_plain k hk] at this
  exact url.parseQueryLoop_last fuel m k (url.QueryEscape v) err k v hne
    (fun h => (url.not_shouldEscape _ (hk _ h)).2.2.1 rfl)
    (fun h => (url.not_shouldEscape _ (hk _ h)).2.2.2.1 rfl)
    (fun h => (url.not_shouldEscape _ (hk _ h)).2.2.2.2.1 rfl)
    (fun h => (url.QueryEscape_clean v _ h).1 rfl)
    (fun h => (url.QueryEscape_clean v _ h).2.2 rfl)
    huk (url.QueryUnescape_QueryEscape v)

/-- Decoding the body that `PostForm` sends gives back the seven fields. -/
theorem ParseQuery_tokenExchangeForm (cfg : Flags) :
    url.ParseQuery (tokenExchangeForm cfg).Encode =
      some ([(str "audience", [cfg.stsAudience]),
             (str "grant_type", [str "urn:ietf:params:oauth:grant-type:token-exchange"]),
             (str "requested_token_type", [str "urn:ietf:params:oauth:token-type:jwt"]),
             (str "resource", [cfg.stsAudience]),
             (str "scope", [cfg.stsScope]),
             (str "subject_token", [cfg.stsCred]),
             (str "subject_token_type", [str "urn:ietf:params:oauth:token-type:access_token"])],
            none) := by
  rw [tokenExchangeForm_Encode]
  unfold url.ParseQuery
  generalize hq : (str "audience" ++ 61 :: (url.QueryEscape cfg.stsAudience ++ 38 :: _)) = q
  obtain ⟨n, hn⟩ : ∃ n, q.length = n + 7 := by
    refine ⟨q.length - 7, ?_⟩
    rw [← hq]
    simp only [List.length_append, List.length_cons]
    omega
  rw [hn, ← hq]
  rw [parseQueryLoop_field (n + 6) _ (str "audience") cfg.stsAudience _ _ (by decide) (by decide),
    parseQueryLoop_field (n + 5) _ (str "grant_type") _ _ _ (by decide) (by decide),
    parseQueryLoop_field (n + 4) _ (str "requested_token_type") _ _ _ (by decide) (by decide),
    parseQueryLoop_field (n + 3) _ (str "resource") _ _ _ (by decide) (by decide),
    parseQueryLoop_field (n + 2) _ (str "scope") _ _ _ (by decide) (by decide),
    parseQueryLoop_field (n + 1) _ (str "subject_token") _ _ _ (by decide) (by decide),
    parseQueryLoop_field_last n _ (str "subject_token_type") _ _ (by decide) (by decide)]
  rfl

/-- A key that is not in the map has no value. -/
theorem lookupAll_of_not_mem (v : url.Values) (k : GoString) (hk : k ∉ v.keys) :
    v.lookupAll k = [] := by
  have : List.lookup k v = none := by
    rw [List.lookup_eq_none_iff]
    intro p hp
    rw [bne_iff_ne]
    intro he
    exact hk (by simpa [url.Values.keys] using ⟨p.2, by rw [he]; exact hp⟩)
  simp [url.Values.lookupAll, this]

/-- C5. Round trip of the token-exchange form: for all byte strings
`stsaudience`, `scope` and `stsCred`, decoding with `url.ParseQuery` the
body that `PostForm` sends (`Values.Encode` of the form built in `main`)
succeeds, with a nil error, and yields a map with exactly seven keys in which
`resource` and `audience` have the single value `stsaudience`, `scope` the
single value `scope`, `subject_token` the single value `stsCred`, byte for
byte, and the three URN fields their fixed values; the decoded map has, for
every key, the values of the form that was encoded.  Every POST of a run has
that encoding as its body. -/
theorem form_round_trip (cfg : Flags) (w : World) :
    ∃ m, url.ParseQuery (tokenExchangeForm cfg).Encode = some (m, none)
      ∧ m.keys.length = 7 ∧ m.keys.Nodup
      ∧ m.lookupAll (str "resource") = [cfg.stsAudience]
      ∧ m.lookupAll (str "audience") = [cfg.stsAudience]
      ∧ m.lookupAll (str "scope") = [cfg.stsScope]
      ∧ m.lookupAll (str "subject_token") = [cfg.stsCred]
      ∧ m.lookupAll (str "grant_type")
          = [str "urn:ietf:params:oauth:grant-type:token-exchange"]
      ∧ m.lookupAll (str "subject_token_type")
          = [str "urn:ietf:params:oauth:token-type:access_token"]
      ∧ m.lookupAll (str "requested_token_type")
          = [str "urn:ietf:params:oauth:token-type:jwt"]
      ∧ (∀ k, m.lookupAll k = (tokenExchangeForm cfg).lookupAll k)
      ∧ (∀ tls req, Event.send tls req ∈ (main cfg w).events → req.Method = str "POST" →
          req.Body = some (tokenExchangeForm cfg).Encode) := by
  refine ⟨_, ParseQuery_tokenExchangeForm cfg, rfl, ?_, rfl, rfl, rfl, rfl, rfl, rfl, rfl, ?_, ?_⟩
  · have hkeys : url.Values.keys
        [(str "audience", [cfg.stsAudience]),
         (str "grant_type", [str "urn:ietf:params:oauth:grant-type:token-exchange"]),
         (str "requested_token_type", [str "urn:ietf:params:oauth:token-type:jwt"]),
         (str "resource", [cfg.stsAudience]),
         (str "scope", [cfg.stsScope]),
         (str "subject_token", [cfg.stsCred]),
         (str "subject_token_type", [str "urn:ietf:params:oauth:token-type:access_token"])]
        = [str "audience", str "grant_type", str "requested_token_type", str "resource",
           str "scope", str "subject_token", str "subject_token_type"] := rfl
    rw [hkeys]
    decide
  · intro k
    by_cases h1 : k = str "audience"
    · subst h1; rfl
    by_cases h2 : k = str "grant_type"
    · subst h2; rfl
    by_cases h3 : k = str "requested_token_type"
    · subst h3; rfl
    by_cases h4 : k = str "resource"
    · subst h4; rfl
    by_cases h5 : k = str "scope"
    · subst h5; rfl
    by_cases h6 : k = str "subject_token"
    · subst h6; rfl
    by_cases h7 : k = str "subject_token_type"
    · subst h7; rfl
    rw [lookupAll_of_not_mem _ k (by simp [url.Values.keys, h1, h2, h3, h4, h5, h6, h7]),
      lookupAll_of_not_mem _ k (by
        rw [tokenExchangeForm_eq]
        simp [url.Values.keys, h1, h2, h3, h4, h5, h6, h7])]
  · intro tls req h hm
    rw [main_post_body cfg w tls req h hm]
    rfl

end CertBoundSTS
